import Mathlib

/-!
# Verification of the `composeVideo` filter-graph builder and file-management endpoints

Shallow embedding of the FFmpeg command builder (`lib/ffmpeg.js`, class `FFmpeg`,
method `composeVideo`) and of the relevant HTTP handlers in `server.js`
(`POST /api/compose` and `DELETE /api/files/delete`) of the `yishe-videos` repository.

Numbers that JavaScript holds as `number` are modelled as exact fractions
(`JNum`, an integer numerator over a positive natural denominator); the
serialization `numToStr` reproduces JavaScript's `String(n)` output exactly for
numbers with a finite decimal expansion (the only ones the verified claims
touch); for infinite decimal expansions it truncates at 20 fractional digits, a
modelling approximation of IEEE-754 shortest-round-trip printing.
JavaScript's `x || default` on numbers is `jsOrQ` (0 is falsy), on strings
`jsOrS` ("" is falsy); `x !== undefined ? x : d` is `Option.getD`.
-/

/-- A JavaScript number, modelled as the exact fraction `num / den`
(denominators are kept positive by construction; fractions are not normalized,
which `numToStr` and all comparisons tolerate). -/
structure JNum where
  num : ℤ
  den : ℕ
deriving DecidableEq, Repr

instance (n : ℕ) : OfNat JNum n := ⟨⟨n, 1⟩⟩

/-- Semantic test `a = 0`. -/
def JNum.isZero (a : JNum) : Bool := a.num = 0

/-- Semantic test `a < b` (denominators positive). -/
def JNum.blt (a b : JNum) : Bool := a.num * b.den < b.num * a.den

/-- Semantic test `a ≤ b`. -/
def JNum.ble (a b : JNum) : Bool := a.num * b.den ≤ b.num * a.den

/-- Semantic equality test `a == b` (cross multiplication). -/
def JNum.beqv (a b : JNum) : Bool := a.num * b.den = b.num * a.den

def JNum.sub (a b : JNum) : JNum := ⟨a.num * b.den - b.num * a.den, a.den * b.den⟩

def JNum.mul (a b : JNum) : JNum := ⟨a.num * b.num, a.den * b.den⟩

/-- Division by a (positive) natural constant, e.g. `volume / 100`. -/
def JNum.divNat (a : JNum) (k : ℕ) : JNum := ⟨a.num, a.den * k⟩

/-- JavaScript `Math.max(a, b)`. -/
def JNum.jmax (a b : JNum) : JNum := if a.blt b then b else a

/-- JavaScript `x || d` for an optional number: `undefined` and `0` fall back to `d`. -/
def jsOrQ (x : Option JNum) (d : JNum) : JNum :=
  match x with
  | none => d
  | some v => if v.isZero then d else v

/-- JavaScript `x || d` for an optional string: `undefined` and `""` fall back to `d`. -/
def jsOrS (x : Option String) (d : String) : String :=
  match x with
  | none => d
  | some v => if v = "" then d else v

/-- Fuel-driven digit extraction (structural, so kernel reduction works);
`fuel ≥ n` always suffices. -/
def natDigitsAux : ℕ → ℕ → List ℕ
  | 0, _ => []
  | fuel + 1, n => if n = 0 then [] else natDigitsAux fuel (n / 10) ++ [n % 10]

/-- Decimal digits of a natural number, most significant first; `[]` for 0. -/
def natDigits (n : ℕ) : List ℕ :=
  natDigitsAux n n

/-- A decimal digit as a character (values ≥ 10 never arise). -/
def digitChar : ℕ → Char
  | 0 => '0' | 1 => '1' | 2 => '2' | 3 => '3' | 4 => '4'
  | 5 => '5' | 6 => '6' | 7 => '7' | 8 => '8' | _ => '9'

/-- Decimal rendering of a natural number, as JavaScript prints integer indices. -/
def natToStr (n : ℕ) : String :=
  if n = 0 then "0" else String.mk ((natDigits n).map digitChar)

/-- Digits of the fractional remainder `rem/den`, up to `fuel` digits
(exact for finite decimal expansions, truncated otherwise). -/
def fracDigits (den : ℕ) : ℕ → ℕ → List ℕ
  | _, 0 => []
  | rem, fuel + 1 =>
    if rem = 0 then []
    else (rem * 10) / den :: fracDigits den ((rem * 10) % den) fuel

/-- JavaScript `String(q)`: sign, integer part, and (if any) a dot followed by
the fractional digits. Exact for finite decimal expansions. -/
def numToStr (q : JNum) : String :=
  let sign := if q.num < 0 then "-" else ""
  let n := q.num.natAbs
  let d := q.den
  let ip := n / d
  let frac := fracDigits d (n % d) 20
  sign ++ natToStr ip ++
    (if frac = [] then "" else "." ++ String.mk (frac.map digitChar))

/-- JavaScript `parseInt` restricted to plain decimal numerals: an optional
sign followed by leading digits; `none` models `NaN`. -/
def jsParseInt (s : String) : Option JNum :=
  let core (l : List Char) : Option ℕ :=
    let ds := l.takeWhile Char.isDigit
    if ds = [] then none
    else some (ds.foldl (fun a c => 10 * a + (c.toNat - 48)) 0)
  match s.data with
  | '-' :: rest => (core rest).map (fun n => ⟨-(n : ℤ), 1⟩)
  | '+' :: rest => (core rest).map (fun n => ⟨(n : ℤ), 1⟩)
  | l => (core l).map (fun n => ⟨(n : ℤ), 1⟩)

/-- Replace the first (leftmost) occurrence of `pat` in a character list,
as JavaScript `String.prototype.replace` with a string pattern does. -/
def replaceFirstAux (pat rep : List Char) : List Char → List Char
  | [] => []
  | c :: cs =>
    if pat.isPrefixOf (c :: cs) then rep ++ (c :: cs).drop pat.length
    else c :: replaceFirstAux pat rep cs

/-- JavaScript `s.replace(pat, rep)` for string patterns: first occurrence only. -/
def replaceFirstStr (s pat rep : String) : String :=
  String.mk (replaceFirstAux pat.data rep.data s.data)

/-- JavaScript `s.endsWith(pat)`. -/
def strEndsWith (s pat : String) : Bool :=
  pat.data.isSuffixOf s.data

/-- Substring occurrence test on character lists. -/
def subOccurs (pat : List Char) : List Char → Bool
  | [] => pat.isPrefixOf []
  | c :: cs => pat.isPrefixOf (c :: cs) || subOccurs pat cs

/-- JavaScript `s.includes(pat)` (substring test). -/
def containsSub (s pat : String) : Bool :=
  subOccurs pat.data s.data

/-- JavaScript `s.trim()` restricted to ASCII whitespace: strip it from both
ends (the builder only ever trims whitespace-free filter text). -/
def jsTrim (s : String) : String :=
  let ws (c : Char) : Bool := c = ' ' ∨ c = '\t' ∨ c = '\n' ∨ c = '\r'
  String.mk (((s.data.dropWhile ws).reverse.dropWhile ws).reverse)

/-- JavaScript `array.join('')` on strings. -/
def joinAll : List String → String
  | [] => ""
  | s :: rest => s ++ joinAll rest

/-- Rewrite the first element (scanning left) that ends with `pat`, replacing the
first occurrence of `pat` inside it by `rep`; later elements untouched. -/
def renameFirst (pat rep : String) : List String → List String
  | [] => []
  | s :: rest =>
    if strEndsWith s pat then replaceFirstStr s pat rep :: rest
    else s :: renameFirst pat rep rest

/-- The source's backward loop over `filterComplex` (`for i = length-1; i >= 0; i--`
with `break` at the first hit): rewrite the LAST element ending with `pat`. -/
def renameLastEnds (l : List String) (pat rep : String) : List String :=
  (renameFirst pat rep l.reverse).reverse

/-- Map with the element's running index, starting at `base`; mirrors the source's
`inputIndex` counter that keeps increasing across the image/video/audio loops. -/
def mapIdxFrom (base : ℕ) (f : ℕ → α → β) : List α → List β
  | [] => []
  | a :: as => f base a :: mapIdxFrom (base + 1) f as

/-- `path.resolve(p)` relative to the process working directory, restricted to the
paths this model needs (no `.`/`..` segment normalization). -/
def resolvePath (cwd p : String) : String :=
  if p.data.head? = some '/' then p else cwd ++ "/" ++ p

/-- `path.join(dir, name)` for a `name` free of path separators (the only shape the
delete endpoint ever joins, its separator check having already passed): a lone
`"."` or `""` segment normalizes away, anything else is appended. -/
def pathJoin (dir name : String) : String :=
  if name = "" ∨ name = "." then dir else dir ++ "/" ++ name

/-! ## Data model (resource descriptors, options, environment) -/

/-- `resource.type` in the source: one of `'image' | 'video' | 'audio'`. -/
inductive RType
  | image
  | video
  | audio
deriving DecidableEq, Repr

/-- One entry of the `resources` array passed to `composeVideo`.
Absent JavaScript properties are `none`. -/
structure Resource where
  rtype : RType
  path : String
  duration : Option JNum := none
  startTime : Option JNum := none
  transition : Option String := none
  transitionDuration : Option JNum := none
  position : Option String := none
  scaleMode : Option String := none
  rotation : Option JNum := none
  opacity : Option JNum := none
  fade : Option String := none
  fadeDuration : Option JNum := none
  volume : Option JNum := none
deriving DecidableEq, Repr

/-- The `options` object of `composeVideo` (all fields optional; the method
applies its own defaults, lines 647–669 of the source). -/
structure ComposeOptions where
  width : Option JNum := none
  height : Option JNum := none
  resolution : Option String := none
  fps : Option JNum := none
  videoCodec : Option String := none
  videoPreset : Option String := none
  videoCrf : Option JNum := none
  audioCodec : Option String := none
  audioBitrate : Option String := none
  audioSampleRate : Option JNum := none
  audioChannels : Option JNum := none
  videoBitrate : Option String := none
  backgroundColor : Option String := none
deriving DecidableEq, Repr

/-- The ambient process state `composeVideo` consults: the working directory
(for `path.resolve`), the filesystem existence oracle (`fs.existsSync`), and
whether the output directory write test succeeds. -/
structure Env where
  cwd : String
  fsExists : String → Bool
  outputWritable : Bool

/-- What `composeVideo` hands to the process runner on success: `filterComplex`
is the list the source pushes fragments onto (the `-filter_complex` argument is
its `';'`-join), `args` the complete ffmpeg argument list. -/
structure ComposeResult where
  filterComplex : List String
  args : List String
deriving DecidableEq, Repr

/-- The `-filter_complex` argument text: `filterComplex.join(';')`. -/
def graphText (r : ComposeResult) : String :=
  String.intercalate ";" r.filterComplex

/-! ## Resolved options (source lines 647–669) -/

/-- JavaScript `s.split(sep)` for a one-character separator: split at every
occurrence, keeping empty pieces. -/
def splitOnCharAux (c : Char) : List Char → List Char → List String
  | [], acc => [String.mk acc.reverse]
  | d :: ds, acc =>
    if d = c then String.mk acc.reverse :: splitOnCharAux c ds []
    else splitOnCharAux c ds (d :: acc)

def splitOnChar (s : String) (c : Char) : List String := splitOnCharAux c s.data []

/-- `options.resolution` parsing (lines 649–655): a truthy `resolution` of shape
`"WxH"` overrides `width`/`height`, each part through `parseInt(part) || previous`. -/
def resolveWH (o : ComposeOptions) : JNum × JNum :=
  let w0 := jsOrQ o.width 1280
  let h0 := jsOrQ o.height 720
  match o.resolution with
  | none => (w0, h0)
  | some r =>
    if r = "" then (w0, h0)
    else
      match splitOnChar r 'x' with
      | [a, b] => (jsOrQ (jsParseInt a) w0, jsOrQ (jsParseInt b) h0)
      | _ => (w0, h0)

def optFps (o : ComposeOptions) : JNum := jsOrQ o.fps 25
def optVideoCodec (o : ComposeOptions) : String := jsOrS o.videoCodec "libx264"
def optVideoPreset (o : ComposeOptions) : String := jsOrS o.videoPreset "medium"
def optVideoCrf (o : ComposeOptions) : JNum := o.videoCrf.getD 23
def optAudioCodec (o : ComposeOptions) : String := jsOrS o.audioCodec "aac"
def optAudioBitrate (o : ComposeOptions) : String := jsOrS o.audioBitrate "192k"
def optAudioSampleRate (o : ComposeOptions) : JNum := jsOrQ o.audioSampleRate 44100
def optAudioChannels (o : ComposeOptions) : JNum := jsOrQ o.audioChannels 2
def optVideoBitrate (o : ComposeOptions) : String := jsOrS o.videoBitrate "2000k"

/-- `backgroundColor.replace('#', '0x')` (line 669). -/
def bgColorHex (o : ComposeOptions) : String :=
  replaceFirstStr (jsOrS o.backgroundColor "#000000") "#" "0x"

/-! ## Per-resource filter builders (source lines 710–820) -/

/-- The scale step chosen by `scaleMode` (lines 718–731): `fit`, `fill`,
`crop`, or the `fit` default for unrecognized values. -/
def scaleModeFilter (scaleMode : String) (tW tH : JNum) : String :=
  if scaleMode = "fit" then
    "scale=" ++ numToStr tW ++ ":" ++ numToStr tH ++ ":force_original_aspect_ratio=decrease"
  else if scaleMode = "fill" then
    "scale=" ++ numToStr tW ++ ":" ++ numToStr tH ++ ":force_original_aspect_ratio=increase"
  else if scaleMode = "crop" then
    "scale=" ++ numToStr tW ++ ":" ++ numToStr tH ++ ":force_original_aspect_ratio=increase,crop="
      ++ numToStr tW ++ ":" ++ numToStr tH
  else
    "scale=" ++ numToStr tW ++ ":" ++ numToStr tH ++ ":force_original_aspect_ratio=decrease"

/-- The pad x-offset chosen by `position` (lines 734–748). -/
def padXFor (position : String) : String :=
  if position = "top-left" then "0"
  else if position = "top-right" then "ow-iw"
  else if position = "bottom-left" then "0"
  else if position = "bottom-right" then "ow-iw"
  else "(ow-iw)/2"

/-- The pad y-offset chosen by `position` (lines 734–748). -/
def padYFor (position : String) : String :=
  if position = "top-left" then "0"
  else if position = "top-right" then "0"
  else if position = "bottom-left" then "oh-ih"
  else if position = "bottom-right" then "oh-ih"
  else "(oh-ih)/2"

/-- The rotation step (lines 754–756), empty when `rotation === 0`;
`rotation * Math.PI / 180` with Math.PI the IEEE-754 double closest to pi,
exactly 884279719003555 / 2^48. -/
def rotateFilter (bg : String) (rotation : JNum) (tW tH : JNum) : String :=
  if !rotation.isZero then
    ",rotate=" ++ numToStr ((rotation.mul ⟨884279719003555, 281474976710656⟩).divNat 180)
      ++ ":fillcolor=" ++ bg ++ ":ow=" ++ numToStr tW ++ ":oh=" ++ numToStr tH
  else ""

/-- The opacity step (lines 759–762), applied only when `opacity < 100`. -/
def opacityFilter (opacity : JNum) : String :=
  if opacity.blt 100 then
    ",format=yuva420p,colorchannelmixer=aa=" ++ numToStr (opacity.divNat 100)
  else ""

/-- `buildScaleAndPositionFilter(inputLabel, resource, targetWidth, targetHeight)`
(lines 710–765): scale mode, pad with position offsets and background color,
rotation, opacity, each appended in order (a skipped step appends nothing). -/
def buildScaleAndPositionFilter (bg : String) (inputLabel : String) (r : Resource)
    (tW tH : JNum) : String :=
  inputLabel
    ++ scaleModeFilter (jsOrS r.scaleMode "fit") tW tH
    ++ ",pad=" ++ numToStr tW ++ ":" ++ numToStr tH ++ ":"
    ++ padXFor (jsOrS r.position "center") ++ ":" ++ padYFor (jsOrS r.position "center")
    ++ ":color=" ++ bg
    ++ rotateFilter bg (jsOrQ r.rotation 0) tW tH
    ++ opacityFilter (r.opacity.getD 100)

/-- The fade-in step (lines 776–778). -/
def fadeInPart (transition : String) (td : JNum) : String :=
  if transition = "fade" ∨ transition = "fadein" then
    ",fade=t=in:st=0:d=" ++ numToStr td
  else ""

/-- The fade-out step (lines 779–782), starting `max(0, total - td)`. -/
def fadeOutPart (transition : String) (td totalDuration : JNum) : String :=
  if transition = "fade" ∨ transition = "fadeout" then
    ",fade=t=out:st=" ++ numToStr (JNum.jmax 0 (totalDuration.sub td)) ++ ":d=" ++ numToStr td
  else ""

/-- The re-pad step shared by slide/zoom transitions, using the captured
target `width`/`height`. -/
def rePadPart (bg : String) (W H : JNum) : String :=
  ",pad=" ++ numToStr W ++ ":" ++ numToStr H ++ ":(ow-iw)/2:(oh-ih)/2:color=" ++ bg

/-- The slide steps (lines 786–802): a moving crop window then a re-pad. -/
def slidePart (bg : String) (W H : JNum) (transition : String) (td curW curH : JNum) : String :=
  if transition = "slideLeft" then
    ",crop=" ++ numToStr curW ++ ":" ++ numToStr curH ++ ":max(0,-" ++ numToStr curW
      ++ "*(1-t/" ++ numToStr td ++ ")):0" ++ rePadPart bg W H
  else if transition = "slideRight" then
    ",crop=" ++ numToStr curW ++ ":" ++ numToStr curH ++ ":min(iw-" ++ numToStr curW
      ++ "," ++ numToStr curW ++ "*(1-t/" ++ numToStr td ++ ")):0" ++ rePadPart bg W H
  else if transition = "slideUp" then
    ",crop=" ++ numToStr curW ++ ":" ++ numToStr curH ++ ":0:min(ih-" ++ numToStr curH
      ++ "," ++ numToStr curH ++ "*(1-t/" ++ numToStr td ++ "))" ++ rePadPart bg W H
  else if transition = "slideDown" then
    ",crop=" ++ numToStr curW ++ ":" ++ numToStr curH ++ ":0:max(0,-" ++ numToStr curH
      ++ "*(1-t/" ++ numToStr td ++ "))" ++ rePadPart bg W H
  else ""

/-- The zoom steps (lines 805–817): time-varying scale then a re-pad;
`String(0.5)+"+("+String(1)+"-"+String(0.5)+")..."` renders as `0.5+(1-0.5)...`. -/
def zoomPart (bg : String) (W H : JNum) (transition : String) (td : JNum) : String :=
  if transition = "zoomIn" then
    ",scale=iw*" ++ "0.5+(1-0.5)*min(1,t/" ++ numToStr td ++ ")"
      ++ ":ih*" ++ "0.5+(1-0.5)*min(1,t/" ++ numToStr td ++ ")" ++ rePadPart bg W H
  else if transition = "zoomOut" then
    ",scale=iw*" ++ "1.5+(1-1.5)*min(1,t/" ++ numToStr td ++ ")"
      ++ ":ih*" ++ "1.5+(1-1.5)*min(1,t/" ++ numToStr td ++ ")" ++ rePadPart bg W H
  else ""

/-- `buildTransitionFilter(transition, transitionDuration, totalDuration,
currentWidth, currentHeight)` (lines 768–820): empty for `none`, otherwise the
fade/slide/zoom steps appended in the order the source builds them. -/
def buildTransitionFilter (bg : String) (W H : JNum) (transition : String)
    (td totalDuration curW curH : JNum) : String :=
  if transition = "none" then ""
  else
    fadeInPart transition td ++ fadeOutPart transition td totalDuration
      ++ slidePart bg W H transition td curW curH ++ zoomPart bg W H transition td

/-! ## Fragments and graph assembly (source lines 822–992) -/

/-- `img.duration || 3` (line 824): absent or zero image durations silently
become 3 seconds; negative ones pass through. -/
def imageClipDuration (img : Resource) : JNum :=
  jsOrQ img.duration 3

/-- The filter-chain fragment pushed for the image at ffmpeg input index `i`
(lines 823–868): loop, scale/position chain, `setsar`/`fps`/`trim`, transition,
output pad `[v<i>]`. -/
def imageFragment (bg : String) (W H fps : JNum) (i : ℕ) (img : Resource) : String :=
  let duration := imageClipDuration img
  let transition := jsOrS img.transition "none"
  let td := jsOrQ img.transitionDuration ⟨1, 2⟩
  let base := "[" ++ natToStr i ++ ":v]loop=-1:size=1:start=0"
  let scaleFilter := buildScaleAndPositionFilter bg "" img W H
  let f1 := if jsTrim scaleFilter ≠ "" then base ++ "," ++ jsTrim scaleFilter else base
  let f2 := f1 ++ ",setsar=1,fps=" ++ numToStr fps ++ ":round=up,trim=duration="
    ++ numToStr duration
  let f3 := if transition ≠ "none" ∧ 0 < td.num then
      f2 ++ buildTransitionFilter bg W H transition td duration W H
    else f2
  f3 ++ "[v" ++ natToStr i ++ "]"

/-- The fragment pushed for the video at ffmpeg input index `i` (lines 871–905):
scale/position chain on `[<i>:v]`, `setsar`/`fps`, transition
(total duration `vid.duration || 5`), output pad `[v<i>]`. -/
def videoFragment (bg : String) (W H fps : JNum) (i : ℕ) (vid : Resource) : String :=
  let transition := jsOrS vid.transition "none"
  let td := jsOrQ vid.transitionDuration ⟨1, 2⟩
  let f1 := buildScaleAndPositionFilter bg ("[" ++ natToStr i ++ ":v]") vid W H
  let f2 := f1 ++ ",setsar=1,fps=" ++ numToStr fps
  let f3 := if transition ≠ "none" ∧ 0 < td.num then
      f2 ++ buildTransitionFilter bg W H transition td (jsOrQ vid.duration 5) W H
    else f2
  f3 ++ "[v" ++ natToStr i ++ "]"

/-- The audio filter list for one audio resource (lines 920–942): volume scaling
when `volume !== 100`, then `afade` in/out. -/
def audioFilters (aud : Resource) : List String :=
  let fade := jsOrS aud.fade "none"
  let fadeDuration := jsOrQ aud.fadeDuration 1
  let volume := aud.volume.getD 100
  (if !volume.beqv 100 then ["volume=" ++ numToStr (volume.divNat 100)] else []) ++
  (if fade ≠ "none" ∧ 0 < fadeDuration.num then
    (if fade = "fadein" ∨ fade = "both" then
       ["afade=t=in:st=0:d=" ++ numToStr fadeDuration] else []) ++
    (if fade = "fadeout" ∨ fade = "both" then
       ["afade=t=out:st=" ++ numToStr (JNum.jmax 0 ((jsOrQ aud.duration 10).sub fadeDuration))
         ++ ":d=" ++ numToStr fadeDuration] else [])
   else [])

/-- The fragment pushed for the audio resource at input index `i`, if it has any
filters (lines 944–950); `none` mirrors `filterIndex: null` (raw stream used). -/
def audioFragment? (i : ℕ) (aud : Resource) : Option String :=
  let fs := audioFilters aud
  if fs ≠ [] then
    some ("[" ++ natToStr i ++ ":a]" ++ String.intercalate "," fs ++ "[a" ++ natToStr i ++ "]")
  else none

/-- The pad label the mixer reads for the audio resource at input index `i`
(lines 977–984): the filtered pad `[a<i>]`, or the raw stream `[<i>:a]`. -/
def audioLabel (i : ℕ) (aud : Resource) : String :=
  if audioFilters aud ≠ [] then "[a" ++ natToStr i ++ "]"
  else "[" ++ natToStr i ++ ":a]"

/-- Partition (lines 687–695): one pass pushing each resource onto the list for
its `type`, preserving relative order within each kind. -/
def imagesOf (rs : List Resource) : List Resource := rs.filter (fun r => r.rtype = RType.image)
def videosOf (rs : List Resource) : List Resource := rs.filter (fun r => r.rtype = RType.video)
def audiosOf (rs : List Resource) : List Resource := rs.filter (fun r => r.rtype = RType.audio)

/-- Number of visual (image or video) resources; they occupy ffmpeg input
indices `0 .. visualCount-1`, images first. -/
def visualCount (rs : List Resource) : ℕ :=
  (imagesOf rs).length + (videosOf rs).length

/-- The video output pad label `[v<i>]`. -/
def padV (i : ℕ) : String := "[v" ++ natToStr i ++ "]"

/-- The filtered audio pad label `[a<i>]`. -/
def padA (i : ℕ) : String := "[a" ++ natToStr i ++ "]"

/-- The concatenation entry (lines 966–971):
`[v0][v1]…concat=n=<nV>:v=1:a=0[outv]`. -/
def mkConcatEntry (nV : ℕ) : String :=
  joinAll ((List.range nV).map padV)
    ++ "concat=n=" ++ natToStr nV ++ ":v=1:a=0[outv]"

/-- The mixing entry (lines 976–985):
`<labels>amix=inputs=<nA>:duration=longest:dropout_transition=2[outa]`. -/
def mkAmixEntry (labels : List String) (nA : ℕ) : String :=
  joinAll labels ++ "amix=inputs=" ++ natToStr nA
    ++ ":duration=longest:dropout_transition=2[outa]"

/-- The labels the mixer consumes, one per audio resource, in push order. -/
def audioLabels (rs : List Resource) : List String :=
  mapIdxFrom (visualCount rs) audioLabel (audiosOf rs)

/-- The complete `filterComplex` list, in the exact order the source pushes
entries: image fragments, video fragments, audio fragments, then either the
single-visual rename of `[v0]` to `[outv]` (applied to the last entry ending in
`[v0]`, scanning backwards) or the concat entry, then the amix entry. -/
def buildFC (o : ComposeOptions) (rs : List Resource) : List String :=
  let (W, H) := resolveWH o
  let fps := optFps o
  let bg := bgColorHex o
  let images := imagesOf rs
  let videos := videosOf rs
  let audios := audiosOf rs
  let nI := images.length
  let nV := nI + videos.length
  let base :=
    mapIdxFrom 0 (imageFragment bg W H fps) images
    ++ mapIdxFrom nI (videoFragment bg W H fps) videos
    ++ (mapIdxFrom nV audioFragment? audios).reduceOption
  let withV :=
    if nV > 0 then
      if nV = 1 then renameLastEnds base (padV 0) "[outv]"
      else base ++ [mkConcatEntry nV]
    else base
  if audios.length > 0 then withV ++ [mkAmixEntry (mapIdxFrom nV audioLabel audios) audios.length]
  else withV

/-! ## Argument assembly (source lines 702–703, 822–952, 988–1045) -/

/-- Per-input `-ss`/`-t` flags for video and audio resources (lines 874–881,
911–917): emitted only when the value is defined and `> 0`, and always
immediately before that resource's `-i`. -/
def seekDurArgs (r : Resource) : List String :=
  (match r.startTime with
   | some s => if 0 < s.num then ["-ss", numToStr s] else []
   | none => []) ++
  (match r.duration with
   | some d => if 0 < d.num then ["-t", numToStr d] else []
   | none => [])

/-- The input block for one image: just `-i <resolved path>` (line 836). -/
def imageInputArgs (cwd : String) (r : Resource) : List String :=
  ["-i", resolvePath cwd r.path]

/-- The input block for one video or audio resource: seek/duration flags then
`-i <resolved path>`. -/
def avInputArgs (cwd : String) (r : Resource) : List String :=
  seekDurArgs r ++ ["-i", resolvePath cwd r.path]

/-- Audio codec flags (lines 1021–1028 / 1034–1041). -/
def audioCodecArgs (o : ComposeOptions) : List String :=
  if optAudioCodec o ≠ "copy" then
    ["-acodec", optAudioCodec o, "-b:a", optAudioBitrate o,
     "-ar", numToStr (optAudioSampleRate o), "-ac", numToStr (optAudioChannels o)]
  else ["-acodec", "copy"]

/-- Video encoding flags (lines 995–1012): codec; for libx264/libx265 a preset
plus CRF in [0,51] or bitrate; otherwise bitrate; then pixel format & shortest. -/
def videoCodecArgs (o : ComposeOptions) : List String :=
  ["-vcodec", optVideoCodec o] ++
  (if optVideoCodec o = "libx264" ∨ optVideoCodec o = "libx265" then
    ["-preset", optVideoPreset o] ++
    (if (0 : JNum).ble (optVideoCrf o) ∧ (optVideoCrf o).ble 51 then
      ["-crf", numToStr (optVideoCrf o)]
    else ["-b:v", optVideoBitrate o])
  else ["-b:v", optVideoBitrate o]) ++
  ["-pix_fmt", "yuv420p", "-shortest"]

/-- Output-stream mapping and audio codec flags (lines 1014–1042): `[outv]`
whenever a visual exists; `[outa]` (after codec flags) when audio resources
exist, else a fallback map of the first video input's embedded audio. -/
def mapArgs (o : ComposeOptions) (rs : List Resource) : List String :=
  (if visualCount rs > 0 then ["-map", "[outv]"] else []) ++
  (if (audiosOf rs).length > 0 then audioCodecArgs o ++ ["-map", "[outa]"]
   else if (videosOf rs).length > 0 then
     ["-map", natToStr (imagesOf rs).length ++ ":a?"] ++ audioCodecArgs o
   else [])

/-- The complete ffmpeg argument list: `-y`, input blocks (images, videos,
audios — the order fragments were built), `-filter_complex`, encoding flags,
mappings, destination path last (lines 702–1045). -/
def buildArgs (env : Env) (rs : List Resource) (outputPath : String)
    (o : ComposeOptions) : List String :=
  let fc := buildFC o rs
  "-y" ::
    ((imagesOf rs).flatMap (imageInputArgs env.cwd)
      ++ (videosOf rs).flatMap (avInputArgs env.cwd)
      ++ (audiosOf rs).flatMap (avInputArgs env.cwd)
      ++ (if fc ≠ [] then ["-filter_complex", String.intercalate ";" fc] else [])
      ++ videoCodecArgs o
      ++ mapArgs o rs
      ++ [resolvePath env.cwd outputPath])

/-- `composeVideo(resources, outputPath, options)` up to the point where the
external process would be spawned: every `throw` before `executeFFmpeg`
becomes `.error`, and `.ok` carries the assembled graph and argument list
(the process runner is invoked only on `.ok`). Check order is the source's:
output-directory writability (lines 629–635), empty resource list (671–673),
input-file existence (676–680), at-least-one-visual (698–700), and the image
loop's per-file re-check of the resolved path (829–832). -/
def composeVideo (env : Env) (resources : List Resource) (outputPath : String)
    (options : ComposeOptions) : Except String ComposeResult :=
  if !env.outputWritable then .error "输出目录不可写"
  else if resources.isEmpty then .error "资源列表不能为空"
  else
    match resources.find? (fun r => !env.fsExists r.path) with
    | some r => .error ("输入文件不存在: " ++ r.path)
    | none =>
      if (imagesOf resources).isEmpty ∧ (videosOf resources).isEmpty then
        .error "至少需要一个图片或视频资源"
      else
        match (imagesOf resources).find?
            (fun i => !env.fsExists (resolvePath env.cwd i.path)) with
        | some i => .error ("图片文件不存在: " ++ resolvePath env.cwd i.path)
        | none =>
          .ok { filterComplex := buildFC options resources
                args := buildArgs env resources outputPath options }

/-! ## `server.js`: the `POST /api/compose` handler (lines 353–507) -/

/-- One entry of the request's `resources` array as the HTTP handler sees it
(`type` is a raw string, a resource carries a remote `url` or a local
`filename`). -/
structure SResource where
  rtype : String
  url : Option String := none
  filename : Option String := none
  duration : Option JNum := none
  startTime : Option JNum := none
  transition : Option String := none
  transitionDuration : Option JNum := none
  position : Option String := none
  scaleMode : Option String := none
  rotation : Option JNum := none
  opacity : Option JNum := none
  fade : Option String := none
  fadeDuration : Option JNum := none
  volume : Option JNum := none
deriving DecidableEq, Repr

/-- Server process state: clock (for generated file names), working directory,
and the two fixed directories. -/
structure SEnv where
  now : ℕ
  cwd : String
  uploadsDir : String
  outputDir : String

/-- The name `downloadFromUrl` stores the `k`-th downloaded file under
(`downloaded_<unique suffix>`; the suffix is modelled by the download's ordinal). -/
def downloadedPath (env : SEnv) (k : ℕ) : String :=
  env.uploadsDir ++ "/downloaded_" ++ natToStr k

/-- The `resourcePaths.push({...})` mapping (lines 428–442): copy the request
fields, substituting the resolved local path and the handler-level defaults. -/
def toResource (r : SResource) (p : String) : Resource :=
  { rtype := if r.rtype = "image" then .image else if r.rtype = "video" then .video else .audio
    path := p
    duration := r.duration
    startTime := r.startTime
    transition := some (jsOrS r.transition "none")
    transitionDuration := some (jsOrQ r.transitionDuration ⟨1, 2⟩)
    position := some (jsOrS r.position "center")
    scaleMode := some (jsOrS r.scaleMode "fit")
    rotation := some (jsOrQ r.rotation 0)
    opacity := some (r.opacity.getD 100)
    fade := some (jsOrS r.fade "none")
    fadeDuration := some (jsOrQ r.fadeDuration 1)
    volume := some (r.volume.getD 100) }

/-- The options object the handler passes to `composeVideo` (lines 450–472):
every field filled with the handler's defaults, and `resolution` synthesized
from `width`/`height` when both are truthy. -/
def serverOptions (o : ComposeOptions) : ComposeOptions :=
  { width := some (jsOrQ o.width 1280)
    height := some (jsOrQ o.height 720)
    resolution := some
      (match o.width, o.height with
       | some w, some h =>
         if !w.isZero ∧ !h.isZero then numToStr w ++ "x" ++ numToStr h
         else match o.resolution with
              | some r => if r ≠ "" then r else "1280x720"
              | none => "1280x720"
       | _, _ =>
         match o.resolution with
         | some r => if r ≠ "" then r else "1280x720"
         | none => "1280x720")
    fps := some (jsOrQ o.fps 25)
    videoCodec := some (jsOrS o.videoCodec "libx264")
    videoPreset := some (jsOrS o.videoPreset "medium")
    videoCrf := some (o.videoCrf.getD 23)
    audioCodec := some (jsOrS o.audioCodec "aac")
    audioBitrate := some (jsOrS o.audioBitrate "192k")
    audioSampleRate := some (jsOrQ o.audioSampleRate 44100)
    audioChannels := some (jsOrQ o.audioChannels 2)
    videoBitrate := some (jsOrS o.videoBitrate "2000k")
    backgroundColor := some (jsOrS o.backgroundColor "#000000") }

/-- Outcome of one `POST /api/compose` request: the HTTP status sent and the
set of files present on disk afterwards. -/
structure HandlerResult where
  status : ℕ
  disk : List String
deriving DecidableEq, Repr

/-- Resolve/download loop (lines 367–443): returns the mapped resources, the
temp-file list, the updated disk, or an early error status. Downloads are
modelled as always succeeding (claim C9's failure path is `composeVideo`
failing after successful downloads). -/
def resolveResources (env : SEnv) : List SResource → ℕ → List String → List String →
    List Resource → Except (ℕ × List String) (List Resource × List String × List String)
  | [], _, disk, temps, acc => .ok (acc.reverse, temps.reverse, disk)
  | r :: rest, i, disk, temps, acc =>
    if ¬(r.rtype = "image" ∨ r.rtype = "video" ∨ r.rtype = "audio") then
      .error (400, disk)
    else
      match r.url with
      | some _ =>
        let p := downloadedPath env i
        resolveResources env rest (i + 1) (p :: disk) (p :: temps) (toResource r p :: acc)
      | none =>
        match r.filename with
        | some f =>
          let p := env.uploadsDir ++ "/" ++ f
          if p ∈ disk then resolveResources env rest (i + 1) disk temps (toResource r p :: acc)
          else .error (404, disk)
        | none => .error (400, disk)

/-- The `POST /api/compose` handler. On `composeVideo` success the handler
unlinks every temp file and answers 200 (lines 474–491); on failure the
`catch` block's cleanup guard `typeof tempFiles !== 'undefined'` is always
false — `tempFiles` is a `const` declared inside the `try` block and is not in
scope in the `catch` block, so `typeof` yields `'undefined'` — hence no file
is removed before the 500 response (lines 492–506). -/
def composeHandler (env : SEnv) (resources : List SResource) (options : ComposeOptions)
    (disk : List String) : HandlerResult :=
  if resources.isEmpty then ⟨400, disk⟩
  else
    match resolveResources env resources 0 disk [] [] with
    | .error (st, disk') => ⟨st, disk'⟩
    | .ok (mapped, temps, disk') =>
      let outputPath := env.outputDir ++ "/composed_" ++ natToStr env.now ++ ".mp4"
      let cenv : Env := ⟨env.cwd, fun p => p ∈ disk', true⟩
      match composeVideo cenv mapped outputPath (serverOptions options) with
      | .ok _ => ⟨200, disk'.filter (fun p => p ∉ temps)⟩
      | .error _ => ⟨500, disk'⟩

/-! ## `server.js`: the `DELETE /api/files/delete` handler (lines 865–919) -/

/-- `fs.existsSync` for the delete endpoint: a path exists if it is a stored
file or one of the two fixed directories. -/
def delExists (up out : String) (disk : List String) (p : String) : Bool :=
  p ∈ disk ∨ p = up ∨ p = out

/-- `fs.unlinkSync`: removes a regular file, throws on anything else
(directories included). -/
def unlinkSync (disk : List String) (p : String) : Except Unit (List String) :=
  if p ∈ disk then .ok (disk.erase p) else .error ()

/-- The `DELETE /api/files/delete` handler: directory whitelist, non-empty
filename, `..`/`/`/`\` substring rejection, join, prefix check, existence
check, unlink (a thrown unlink lands in the route's `catch` → 500). -/
def deleteHandler (up out : String) (directory filename : String)
    (disk : List String) : HandlerResult :=
  if ¬(directory = "uploads" ∨ directory = "output") then ⟨400, disk⟩
  else if filename = "" then ⟨400, disk⟩
  else if containsSub filename ".." ∨ containsSub filename "/" ∨ containsSub filename "\\" then
    ⟨400, disk⟩
  else
    let dirPath := if directory = "uploads" then up else out
    let filePath := pathJoin dirPath filename
    if ¬(dirPath.data.isPrefixOf filePath.data) then ⟨400, disk⟩
    else if ¬(delExists up out disk filePath) then ⟨404, disk⟩
    else
      match unlinkSync disk filePath with
      | .ok disk' => ⟨200, disk'⟩
      | .error _ => ⟨500, disk⟩

/-! ## Toolkit: digits, `natToStr` injectivity and character shape -/

/-- The ten decimal digit characters. -/
def digitChars : List Char := ['0', '1', '2', '3', '4', '5', '6', '7', '8', '9']

/-- Reading decimal digits back. -/
def digitsVal (l : List ℕ) : ℕ := l.foldl (fun a d => 10 * a + d) 0

/-- Characters that can occur in `numToStr` output: digits, minus, dot. -/
def numChars : List Char := digitChars ++ ['-', '.']

/-- Strings whose data never contains `'['` (all filter-chain text between an
input label and the output pad, when the background color is bracket-free). -/
def bracketFree (s : String) : Prop := '[' ∉ s.data

instance (s : String) : Decidable (bracketFree s) := by
  unfold bracketFree
  infer_instance

/-! ## Toolkit: first- and last-character shapes of graph entries -/

/-- `s` starts with `'['` followed by `c`. -/
def SW2 (s : String) (c : Char) : Prop := ∃ r, s.data = '[' :: c :: r

/-- `s` (read from the right) ends with `c` followed by `']'`. -/
def RS2 (s : String) (c : Char) : Prop := ∃ r, s.data.reverse = ']' :: c :: r

/-- The shape of the single visual fragment: `'[' '0'` then bracket-free chain
text `t`, then the output pad `[v0]`. -/
def Chain0 (s : String) : Prop :=
  ∃ t, s.data = ('[' :: '0' :: t) ++ "[v0]".data ∧ '[' ∉ t

/-! ## Characterizing the assembled graph -/

/-- The image fragments, in push order. -/
def imageFrags (o : ComposeOptions) (rs : List Resource) : List String :=
  mapIdxFrom 0
    (imageFragment (bgColorHex o) (resolveWH o).1 (resolveWH o).2 (optFps o)) (imagesOf rs)

/-- The video fragments, continuing the input index after the images. -/
def videoFrags (o : ComposeOptions) (rs : List Resource) : List String :=
  mapIdxFrom (imagesOf rs).length
    (videoFragment (bgColorHex o) (resolveWH o).1 (resolveWH o).2 (optFps o)) (videosOf rs)

/-- The audio fragments actually pushed (resources with at least one filter). -/
def audioFrags (rs : List Resource) : List String :=
  (mapIdxFrom (visualCount rs) audioFragment? (audiosOf rs)).reduceOption

/-- All per-resource fragments, in the order the source pushes them. -/
def baseFrags (o : ComposeOptions) (rs : List Resource) : List String :=
  imageFrags o rs ++ videoFrags o rs ++ audioFrags rs

/-- The trailing amix entry, when any audio resource exists. -/
def amixTail (rs : List Resource) : List String :=
  if (audiosOf rs).length > 0 then
    [mkAmixEntry (audioLabels rs) (audiosOf rs).length]
  else []

/-- The output-pad labels the builder assigns, in assignment order: the visual
pads (collapsed to `[outv]` directly when a single visual exists, else
`[v0]…[v<n-1>]` plus the concat output `[outv]`), the filtered audio pads
`[a<i>]`, and the mix output `[outa]` when any audio resource exists. -/
def padsAssigned (rs : List Resource) : List String :=
  (if visualCount rs = 1 then ["[outv]"]
   else (List.range (visualCount rs)).map padV ++ ["[outv]"]) ++
  ((mapIdxFrom (visualCount rs)
      (fun i a => if audioFilters a ≠ [] then some (padA i) else none)
      (audiosOf rs)).reduceOption) ++
  (if (audiosOf rs).length > 0 then ["[outa]"] else [])

/-! ## The `-map` targets of an argument list -/

/-- The arguments that follow a `-map` flag, in order: what the invocation
asks ffmpeg to put into the output container. -/
def mapTargets : List String → List String
  | a :: b :: rest => if a = "-map" then b :: mapTargets rest else mapTargets (b :: rest)
  | _ => []

/-! ## Concrete inputs used by the examples and witnesses -/

/-- A benign environment: every input file exists, the output directory is
writable. -/
def wEnv : Env := ⟨"/w", fun _ => true, true⟩

/-- A second benign environment with a different working directory. -/
def wEnvB : Env := ⟨"/z", fun _ => true, true⟩

/-- The spec's worked example, first image: 3 s, `fade` transition of 0.5 s. -/
def imgA : Resource :=
  { rtype := .image, path := "/w/a.png", duration := some 3,
    transition := some "fade", transitionDuration := some ⟨1, 2⟩ }

/-- The spec's worked example, second image. -/
def imgB : Resource :=
  { rtype := .image, path := "/w/b.png", duration := some 3,
    transition := some "fade", transitionDuration := some ⟨1, 2⟩ }

/-- The spec's worked example, audio resource with `volume: 50`. -/
def audHalf : Resource := { rtype := .audio, path := "/w/m.mp3", volume := some 50 }

/-- The spec's worked example options: 1280x720 at 25 fps. -/
def exOpts : ComposeOptions := { resolution := some "1280x720", fps := some 25 }

/-- A video resource with no extra settings. -/
def vidPlain : Resource := { rtype := .video, path := "/w/v.mp4" }

/-- An image resource with an explicit 2 s duration. -/
def imgPlain : Resource := { rtype := .image, path := "/w/i.png", duration := some 2 }

/-- An image resource whose `duration` is absent. -/
def imgNoDur : Resource := { rtype := .image, path := "/w/n.png" }

/-- An image resource with a negative `duration` (-1 s). -/
def imgNegDur : Resource := { rtype := .image, path := "/w/g.png", duration := some ⟨-1, 1⟩ }

/-- An audio resource with no extra settings. -/
def audPlain : Resource := { rtype := .audio, path := "/w/m.mp3" }

/-- A server environment for the handler examples. -/
def sEnv9 : SEnv := ⟨7, "/w", "/u", "/o"⟩

/-- A compose-request resource fetched from a remote URL: audio. -/
def audUrl : SResource := { rtype := "audio", url := some "http://x/a.mp3" }

/-- A compose-request resource fetched from a remote URL: image. -/
def imgUrl : SResource :=
  { rtype := "image", url := some "http://x/i.png", duration := some 2 }

/-- The spec's reading of "all visual pads in original resource order": one
fragment per visual resource, indexed in the order resources were supplied. -/
def specVisualFrags (o : ComposeOptions) (rs : List Resource) : List String :=
  mapIdxFrom 0
    (fun i r =>
      if r.rtype = RType.image then
        imageFragment (bgColorHex o) (resolveWH o).1 (resolveWH o).2 (optFps o) i r
      else
        videoFragment (bgColorHex o) (resolveWH o).1 (resolveWH o).2 (optFps o) i r)
    (rs.filter (fun r => r.rtype = RType.image ∨ r.rtype = RType.video))

/-- A video resource with a positive start time (2 s) and duration (4 s). -/
def vidSeek : Resource :=
  { rtype := .video, path := "/w/v.mp4", startTime := some 2, duration := some 4 }

example : natToStr 0 = "0" := by decide
example : natToStr 25 = "25" := by decide
example : numToStr 3 = "3" := by decide
example : numToStr ⟨1, 2⟩ = "0.5" := by decide
example : numToStr ⟨50, 100⟩ = "0.5" := by decide
example : numToStr ⟨5, 2⟩ = "2.5" := by decide
example : numToStr ⟨-2, 1⟩ = "-2" := by decide
example : numToStr (JNum.jmax 0 ((3 : JNum).sub ⟨1, 2⟩)) = "2.5" := by decide
example : replaceFirstStr "#000000" "#" "0x" = "0x000000" := by decide

theorem digitChar_mem (n : ℕ) : digitChar n ∈ digitChars := by
  match n with
  | 0 | 1 | 2 | 3 | 4 | 5 | 6 | 7 | 8 => decide
  | n + 9 =>
    show digitChar (n + 9) ∈ digitChars
    have : digitChar (n + 9) = '9' := by
      unfold digitChar
      match n with
      | 0 => rfl
      | m + 1 => rfl
    rw [this]; decide

theorem digitChar_inj {m n : ℕ} (hm : m < 10) (hn : n < 10)
    (h : digitChar m = digitChar n) : m = n := by
  have key : ∀ a b : Fin 10, digitChar a.val = digitChar b.val → a = b := by decide
  have := key ⟨m, hm⟩ ⟨n, hn⟩ h
  exact congrArg Fin.val this

theorem natDigitsAux_congr : ∀ f₁ f₂ n : ℕ, n ≤ f₁ → n ≤ f₂ →
    natDigitsAux f₁ n = natDigitsAux f₂ n := by
  intro f₁
  induction f₁ with
  | zero =>
    intro f₂ n h₁ _
    interval_cases n
    cases f₂ <;> simp [natDigitsAux]
  | succ f ih =>
    intro f₂ n h₁ h₂
    cases f₂ with
    | zero =>
      interval_cases n
      simp [natDigitsAux]
    | succ g =>
      by_cases hn : n = 0
      · simp [natDigitsAux, hn]
      · have hd : n / 10 < n := Nat.div_lt_self (Nat.pos_of_ne_zero hn) (by norm_num)
        have e₁ : n / 10 ≤ f := by omega
        have e₂ : n / 10 ≤ g := by omega
        simp only [natDigitsAux, hn, if_false]
        rw [ih g (n / 10) e₁ e₂]

theorem natDigits_succ (n : ℕ) (hn : n ≠ 0) :
    natDigits n = natDigits (n / 10) ++ [n % 10] := by
  have hd : n / 10 < n := Nat.div_lt_self (Nat.pos_of_ne_zero hn) (by norm_num)
  cases n with
  | zero => exact absurd rfl hn
  | succ m =>
    show natDigitsAux (m + 1) (m + 1) = natDigits ((m + 1) / 10) ++ [(m + 1) % 10]
    simp only [natDigitsAux, Nat.succ_ne_zero, if_false]
    congr 1
    exact natDigitsAux_congr m ((m + 1) / 10) ((m + 1) / 10) (by omega) (Nat.le_refl _)

theorem natDigits_zero : natDigits 0 = [] := rfl

theorem natDigits_ne_nil {n : ℕ} (hn : n ≠ 0) : natDigits n ≠ [] := by
  rw [natDigits_succ n hn]
  simp

theorem natDigits_lt (n : ℕ) : ∀ d ∈ natDigits n, d < 10 := by
  induction n using Nat.strong_induction_on with
  | _ n ih =>
    by_cases hn : n = 0
    · subst hn; simp [natDigits_zero]
    · rw [natDigits_succ n hn]
      intro d hd
      rcases List.mem_append.mp hd with h | h
      · exact ih (n / 10) (Nat.div_lt_self (Nat.pos_of_ne_zero hn) (by norm_num)) d h
      · simp at h
        subst h
        exact Nat.mod_lt _ (by norm_num)

theorem digitsVal_append_singleton (l : List ℕ) (d : ℕ) :
    digitsVal (l ++ [d]) = 10 * digitsVal l + d := by
  simp [digitsVal, List.foldl_append]

theorem digitsVal_natDigits (n : ℕ) : digitsVal (natDigits n) = n := by
  induction n using Nat.strong_induction_on with
  | _ n ih =>
    by_cases hn : n = 0
    · subst hn; rfl
    · rw [natDigits_succ n hn, digitsVal_append_singleton,
        ih (n / 10) (Nat.div_lt_self (Nat.pos_of_ne_zero hn) (by norm_num))]
      omega

theorem map_digitChar_inj : ∀ l₁ l₂ : List ℕ, (∀ d ∈ l₁, d < 10) → (∀ d ∈ l₂, d < 10) →
    l₁.map digitChar = l₂.map digitChar → l₁ = l₂ := by
  intro l₁
  induction l₁ with
  | nil => intro l₂ _ _ h; cases l₂ <;> simp_all
  | cons a as ih =>
    intro l₂ h₁ h₂ h
    cases l₂ with
    | nil => simp_all
    | cons b bs =>
      simp only [List.map_cons, List.cons.injEq] at h
      have ha : a = b := digitChar_inj (h₁ a (by simp)) (h₂ b (by simp)) h.1
      have := ih bs (fun d hd => h₁ d (by simp [hd])) (fun d hd => h₂ d (by simp [hd])) h.2
      rw [ha, this]

theorem string_mk_inj {l₁ l₂ : List Char} (h : String.mk l₁ = String.mk l₂) : l₁ = l₂ := by
  injection h

theorem natToStr_inj {m n : ℕ} (h : natToStr m = natToStr n) : m = n := by
  unfold natToStr at h
  by_cases hm : m = 0 <;> by_cases hn : n = 0
  · omega
  · exfalso
    simp only [hm, if_pos rfl, hn, if_neg hn] at h
    have := string_mk_inj h
    have h0 : natDigits n = [0] :=
      map_digitChar_inj (natDigits n) [0] (natDigits_lt n) (by simp)
        (by rw [← this]; rfl)
    have := digitsVal_natDigits n
    rw [h0] at this
    simp [digitsVal] at this
    omega
  · exfalso
    simp only [hm, if_neg hm, hn, if_pos rfl] at h
    have := string_mk_inj h
    have h0 : natDigits m = [0] :=
      map_digitChar_inj (natDigits m) [0] (natDigits_lt m) (by simp) (by rw [this]; rfl)
    have := digitsVal_natDigits m
    rw [h0] at this
    simp [digitsVal] at this
    omega
  · simp only [hm, hn, if_neg hm, if_neg hn] at h
    have := map_digitChar_inj (natDigits m) (natDigits n) (natDigits_lt m) (natDigits_lt n)
      (string_mk_inj h)
    have em := digitsVal_natDigits m
    have en := digitsVal_natDigits n
    rw [this] at em
    omega

theorem natToStr_data_shape (n : ℕ) :
    ∀ c ∈ (natToStr n).data, c ∈ digitChars := by
  unfold natToStr
  by_cases hn : n = 0
  · simp [hn]
    decide
  · simp only [hn, if_neg hn]
    intro c hc
    rcases List.mem_map.mp hc with ⟨d, _, hd⟩
    rw [← hd]
    exact digitChar_mem d

theorem natToStr_ne_nil (n : ℕ) : (natToStr n).data ≠ [] := by
  unfold natToStr
  by_cases hn : n = 0
  · simp [hn]
  · simp only [hn, if_neg hn, String.mk]
    intro hcon
    exact natDigits_ne_nil hn (List.map_eq_nil_iff.mp hcon)

theorem numToStr_data_shape (q : JNum) :
    ∀ c ∈ (numToStr q).data, c ∈ numChars := by
  unfold numToStr
  intro c hc
  simp only [String.data_append] at hc
  rcases List.mem_append.mp hc with h | h
  · rcases List.mem_append.mp h with h' | h'
    · split at h' <;> simp_all [numChars]
    · have := natToStr_data_shape _ c h'
      simp [numChars, this]
  · split at h
    · simp at h
    · simp only [String.data_append] at h
      rcases List.mem_append.mp h with h' | h'
      · simp at h'
        simp [numChars, h']
      · rcases List.mem_map.mp h' with ⟨d, _, hd⟩
        rw [← hd]
        simp [numChars, digitChar_mem d]

theorem digit_notin_special {c : Char} (h : c ∈ digitChars) :
    c ∉ (['[', ']', 'v', 'a', 'o', 'c', ':', ','] : List Char) := by
  simp only [digitChars, List.mem_cons, List.not_mem_nil, or_false] at h
  rcases h with h | h | h | h | h | h | h | h | h | h <;> subst h <;> decide

theorem natToStr_head (n : ℕ) : ∃ c l, (natToStr n).data = c :: l ∧ c ∈ digitChars := by
  rcases hd : (natToStr n).data with _ | ⟨c, l⟩
  · exact absurd hd (natToStr_ne_nil n)
  · exact ⟨c, l, rfl, natToStr_data_shape n c (hd ▸ List.mem_cons_self c l)⟩

theorem natToStr_rev_head (n : ℕ) :
    ∃ c l, (natToStr n).data.reverse = c :: l ∧ c ∈ digitChars := by
  rcases hd : (natToStr n).data.reverse with _ | ⟨c, l⟩
  · exfalso
    exact natToStr_ne_nil n (by simpa using congrArg List.reverse hd)
  · refine ⟨c, l, rfl, natToStr_data_shape n c ?_⟩
    rw [← List.mem_reverse, hd]
    exact List.mem_cons_self c l

theorem bracketFree_append {a b : String} (ha : bracketFree a) (hb : bracketFree b) :
    bracketFree (a ++ b) := by
  unfold bracketFree at *
  rw [String.data_append]
  simp [ha, hb]

theorem bracketFree_natToStr (n : ℕ) : bracketFree (natToStr n) := by
  intro h
  exact digit_notin_special (natToStr_data_shape n '[' h) (by decide)

theorem bracketFree_numToStr (q : JNum) : bracketFree (numToStr q) := by
  intro h
  exact absurd (numToStr_data_shape q '[' h) (by decide)

theorem bracketFree_jsTrim {s : String} (hs : bracketFree s) : bracketFree (jsTrim s) := by
  unfold bracketFree jsTrim at *
  intro h
  simp only [List.mem_reverse] at h
  exact hs (List.dropWhile_sublist _ |>.subset
    (List.mem_reverse.mp (List.dropWhile_sublist _ |>.subset h)))

theorem bracketFree_append_iff (a b : String) :
    bracketFree (a ++ b) ↔ (bracketFree a ∧ bracketFree b) := by
  unfold bracketFree
  rw [String.data_append]
  simp [not_or]

theorem bracketFree_scaleModeFilter (m : String) (tW tH : JNum) :
    bracketFree (scaleModeFilter m tW tH) := by
  unfold scaleModeFilter
  split_ifs <;> simp only [bracketFree_append_iff] <;> repeat' apply And.intro
  all_goals first | exact bracketFree_numToStr _ | decide

theorem bracketFree_padXFor (p : String) : bracketFree (padXFor p) := by
  unfold padXFor
  split_ifs <;> decide

theorem bracketFree_padYFor (p : String) : bracketFree (padYFor p) := by
  unfold padYFor
  split_ifs <;> decide

theorem bracketFree_rotateFilter {bg : String} (hbg : bracketFree bg) (rot tW tH : JNum) :
    bracketFree (rotateFilter bg rot tW tH) := by
  unfold rotateFilter
  split_ifs <;> (try simp only [bracketFree_append_iff]) <;> repeat' apply And.intro
  all_goals first | exact hbg | exact bracketFree_numToStr _ | decide

theorem bracketFree_opacityFilter (op : JNum) : bracketFree (opacityFilter op) := by
  unfold opacityFilter
  split_ifs <;> (try simp only [bracketFree_append_iff]) <;> repeat' apply And.intro
  all_goals first | exact bracketFree_numToStr _ | decide

theorem bracketFree_buildScale {bg inputLabel : String} {r : Resource} {tW tH : JNum}
    (hbg : bracketFree bg) (hin : bracketFree inputLabel) :
    bracketFree (buildScaleAndPositionFilter bg inputLabel r tW tH) := by
  unfold buildScaleAndPositionFilter
  simp only [bracketFree_append_iff]
  repeat' apply And.intro
  all_goals
    first
    | exact hbg
    | exact hin
    | exact bracketFree_scaleModeFilter _ _ _
    | exact bracketFree_padXFor _
    | exact bracketFree_padYFor _
    | exact bracketFree_rotateFilter hbg _ _ _
    | exact bracketFree_opacityFilter _
    | exact bracketFree_numToStr _
    | decide

theorem bracketFree_fadeInPart (t : String) (td : JNum) : bracketFree (fadeInPart t td) := by
  unfold fadeInPart
  split_ifs <;> (try simp only [bracketFree_append_iff]) <;> repeat' apply And.intro
  all_goals first | exact bracketFree_numToStr _ | decide

theorem bracketFree_fadeOutPart (t : String) (td tot : JNum) :
    bracketFree (fadeOutPart t td tot) := by
  unfold fadeOutPart
  split_ifs <;> (try simp only [bracketFree_append_iff]) <;> repeat' apply And.intro
  all_goals first | exact bracketFree_numToStr _ | decide

theorem bracketFree_rePadPart {bg : String} (hbg : bracketFree bg) (W H : JNum) :
    bracketFree (rePadPart bg W H) := by
  unfold rePadPart
  simp only [bracketFree_append_iff]
  repeat' apply And.intro
  all_goals first | exact hbg | exact bracketFree_numToStr _ | decide

set_option maxHeartbeats 1000000 in
theorem bracketFree_slidePart {bg : String} (hbg : bracketFree bg)
    (W H : JNum) (t : String) (td cw ch : JNum) :
    bracketFree (slidePart bg W H t td cw ch) := by
  unfold slidePart
  split_ifs <;>
    simp [bracketFree_append_iff, bracketFree_rePadPart hbg, bracketFree_numToStr,
      show bracketFree ",crop=" by decide, show bracketFree ":" by decide,
      show bracketFree ":max(0,-" by decide, show bracketFree "*(1-t/" by decide,
      show bracketFree ")):0" by decide, show bracketFree ":min(iw-" by decide,
      show bracketFree "," by decide, show bracketFree ":0:min(ih-" by decide,
      show bracketFree "))" by decide, show bracketFree ":0:max(0,-" by decide,
      show bracketFree "" by decide]

set_option maxHeartbeats 1000000 in
theorem bracketFree_zoomPart {bg : String} (hbg : bracketFree bg)
    (W H : JNum) (t : String) (td : JNum) :
    bracketFree (zoomPart bg W H t td) := by
  unfold zoomPart
  split_ifs <;>
    simp [bracketFree_append_iff, bracketFree_rePadPart hbg, bracketFree_numToStr,
      show bracketFree ",scale=iw*" by decide, show bracketFree "0.5+(1-0.5)*min(1,t/" by decide,
      show bracketFree ",scale=iw*0.5+(1-0.5)*min(1,t/" by decide,
      show bracketFree ",scale=iw*1.5+(1-1.5)*min(1,t/" by decide,
      show bracketFree ")" by decide, show bracketFree ":ih*" by decide,
      show bracketFree "1.5+(1-1.5)*min(1,t/" by decide, show bracketFree "" by decide]

set_option maxHeartbeats 1000000 in
theorem bracketFree_buildTransition {bg : String} (hbg : bracketFree bg)
    (W H : JNum) (t : String) (td tot cw ch : JNum) :
    bracketFree (buildTransitionFilter bg W H t td tot cw ch) := by
  unfold buildTransitionFilter
  split_ifs <;>
    simp [bracketFree_append_iff, bracketFree_fadeInPart, bracketFree_fadeOutPart,
      bracketFree_slidePart hbg, bracketFree_zoomPart hbg,
      show bracketFree "" by decide]

theorem SW2_append {s : String} {c : Char} (h : SW2 s c) (t : String) : SW2 (s ++ t) c := by
  obtain ⟨r, hr⟩ := h
  exact ⟨r ++ t.data, by rw [String.data_append, hr]; rfl⟩

theorem SW2_brack_nat (i : ℕ) : ∃ c, c ∈ digitChars ∧ SW2 ("[" ++ natToStr i) c := by
  obtain ⟨c, l, hc, hmem⟩ := natToStr_head i
  exact ⟨c, hmem, ⟨l, by rw [String.data_append, hc]; rfl⟩⟩

theorem RS2_append_right {t : String} {c : Char} (h : RS2 t c) (s : String) :
    RS2 (s ++ t) c := by
  obtain ⟨r, hr⟩ := h
  refine ⟨r ++ s.data.reverse, ?_⟩
  rw [String.data_append, List.reverse_append, hr]
  rfl

/-- Anything of the shape `x ++ natToStr i ++ "]"` ends in a digit then `']'`. -/
theorem RS2_nat_pad (x : String) (i : ℕ) :
    ∃ c, c ∈ digitChars ∧ RS2 ((x ++ natToStr i) ++ "]") c := by
  obtain ⟨c, l, hc, hmem⟩ := natToStr_rev_head i
  refine ⟨c, hmem, ⟨l ++ x.data.reverse, ?_⟩⟩
  rw [String.data_append, String.data_append, List.reverse_append, List.reverse_append, hc]
  rfl

theorem ne_of_SW2 {s t : String} {c₁ c₂ : Char} (hs : SW2 s c₁) (ht : SW2 t c₂)
    (hne : c₁ ≠ c₂) : s ≠ t := by
  obtain ⟨r₁, h₁⟩ := hs
  obtain ⟨r₂, h₂⟩ := ht
  intro he
  rw [he, h₂] at h₁
  simp only [List.cons.injEq] at h₁
  exact hne h₁.2.1.symm

theorem ne_of_RS2 {s t : String} {c₁ c₂ : Char} (hs : RS2 s c₁) (ht : RS2 t c₂)
    (hne : c₁ ≠ c₂) : s ≠ t := by
  obtain ⟨r₁, h₁⟩ := hs
  obtain ⟨r₂, h₂⟩ := ht
  intro he
  rw [he, h₂] at h₁
  simp only [List.cons.injEq] at h₁
  exact hne h₁.2.1.symm

theorem SW2_of_head (i : ℕ) {c : Char} {l : List Char} (hc : (natToStr i).data = c :: l)
    (R : String) : SW2 ("[" ++ (natToStr i ++ R)) c :=
  ⟨l ++ R.data, by rw [String.data_append, String.data_append, hc]; rfl⟩

theorem imageFragment_SW2 (bg : String) (W H fps : JNum) (i : ℕ) (img : Resource) :
    ∃ c, c ∈ digitChars ∧ SW2 (imageFragment bg W H fps i img) c := by
  obtain ⟨c, l, hc, hmem⟩ := natToStr_head i
  refine ⟨c, hmem, ?_⟩
  unfold imageFragment
  dsimp only
  split_ifs <;> simp only [String.append_assoc] <;> exact SW2_of_head i hc _

theorem videoFragment_SW2 (bg : String) (W H fps : JNum) (i : ℕ) (vid : Resource) :
    ∃ c, c ∈ digitChars ∧ SW2 (videoFragment bg W H fps i vid) c := by
  obtain ⟨c, l, hc, hmem⟩ := natToStr_head i
  refine ⟨c, hmem, ?_⟩
  unfold videoFragment buildScaleAndPositionFilter
  dsimp only
  split_ifs <;> simp only [String.append_assoc] <;> exact SW2_of_head i hc _

theorem audioFragment_SW2 (i : ℕ) (aud : Resource) {s : String}
    (h : audioFragment? i aud = some s) : ∃ c, c ∈ digitChars ∧ SW2 s c := by
  obtain ⟨c, l, hc, hmem⟩ := natToStr_head i
  unfold audioFragment? at h
  dsimp only at h
  split_ifs at h
  refine ⟨c, hmem, ?_⟩
  rw [← Option.some_inj.mp h]
  simp only [String.append_assoc]
  exact SW2_of_head i hc _

theorem mkConcatEntry_SW2 {nV : ℕ} (h : 1 ≤ nV) : SW2 (mkConcatEntry nV) 'v' := by
  obtain ⟨m, rfl⟩ : ∃ m, nV = m + 1 := ⟨nV - 1, by omega⟩
  unfold mkConcatEntry
  rw [List.range_succ_eq_map]
  have hj : joinAll (List.map padV (0 :: (List.range m).map Nat.succ))
      = ("[v" ++ ("0]" ++ joinAll (List.map padV ((List.range m).map Nat.succ)))) := by
    show padV 0 ++ joinAll (List.map padV ((List.range m).map Nat.succ)) = _
    rw [show (padV 0 : String) = "[v" ++ "0]" by rfl]
    rw [String.append_assoc]
  rw [hj]
  simp only [String.append_assoc]
  exact ⟨_, by rw [String.data_append]; rfl⟩

theorem imageFragment_RS2 (bg : String) (W H fps : JNum) (i : ℕ) (img : Resource) :
    ∃ c, c ∈ digitChars ∧ RS2 (imageFragment bg W H fps i img) c := by
  unfold imageFragment
  exact RS2_nat_pad _ i

theorem videoFragment_RS2 (bg : String) (W H fps : JNum) (i : ℕ) (vid : Resource) :
    ∃ c, c ∈ digitChars ∧ RS2 (videoFragment bg W H fps i vid) c := by
  unfold videoFragment
  exact RS2_nat_pad _ i

theorem audioFragment_RS2 (i : ℕ) (aud : Resource) {s : String}
    (h : audioFragment? i aud = some s) : ∃ c, c ∈ digitChars ∧ RS2 s c := by
  unfold audioFragment? at h
  dsimp only at h
  split_ifs at h
  rw [← Option.some_inj.mp h]
  exact RS2_nat_pad _ i

theorem mkConcatEntry_RS2 (nV : ℕ) : RS2 (mkConcatEntry nV) 'v' := by
  unfold mkConcatEntry
  refine RS2_append_right ?_ _
  exact ⟨(":v=1:a=0[out").data.reverse, by decide⟩

theorem mkAmixEntry_RS2 (labels : List String) (nA : ℕ) : RS2 (mkAmixEntry labels nA) 'a' := by
  unfold mkAmixEntry
  refine RS2_append_right ?_ _
  exact ⟨(":duration=longest:dropout_transition=2[out").data.reverse, by decide⟩

/-! ## Toolkit: the single-visual `[v0]` → `[outv]` rename -/

/-- If `'['` does not occur in `t` and `pat` starts with `'['`, the first
occurrence of `pat` in `t ++ pat` is the final one. -/
theorem replaceFirstAux_wrap (p rep : List Char) (t : List Char) (ht : '[' ∉ t) :
    replaceFirstAux ('[' :: p) rep (t ++ '[' :: p) = t ++ rep := by
  induction t with
  | nil =>
    show replaceFirstAux ('[' :: p) rep ('[' :: p) = rep
    unfold replaceFirstAux
    rw [if_pos (List.isPrefixOf_iff_prefix.mpr (List.prefix_refl _))]
    simp
  | cons c cs ih =>
    have hc : c ≠ '[' := fun hcon => ht (hcon ▸ List.mem_cons_self c cs)
    show replaceFirstAux ('[' :: p) rep (c :: (cs ++ '[' :: p)) = c :: (cs ++ rep)
    unfold replaceFirstAux
    rw [if_neg, ih (fun hm => ht (List.mem_cons_of_mem c hm))]
    intro hcon
    rcases List.isPrefixOf_iff_prefix.mp hcon with ⟨u, hu⟩
    simp only [List.cons_append, List.cons.injEq] at hu
    exact hc hu.1.symm

theorem Chain0_endsWith {s : String} (h : Chain0 s) : strEndsWith s "[v0]" = true := by
  obtain ⟨t, ht, _⟩ := h
  unfold strEndsWith
  rw [List.isSuffixOf_iff_suffix, ht]
  exact List.suffix_append _ _

/-- Applying the source's `.replace('[v0]', '[outv]')` to a `Chain0` fragment
rewrites exactly the final pad. -/
theorem Chain0_replace {s : String} (h : Chain0 s) :
    ∃ t, (replaceFirstStr s "[v0]" "[outv]").data = ('[' :: '0' :: t) ++ "[outv]".data
      ∧ '[' ∉ t := by
  obtain ⟨t, ht, hb⟩ := h
  refine ⟨t, ?_, hb⟩
  unfold replaceFirstStr
  show replaceFirstAux "[v0]".data "[outv]".data s.data = _
  rw [ht]
  show replaceFirstAux ('[' :: "v0]".data) "[outv]".data
      ('[' :: '0' :: (t ++ '[' :: "v0]".data)) = _
  unfold replaceFirstAux
  rw [if_neg]
  · congr 1
    unfold replaceFirstAux
    rw [if_neg]
    · have := replaceFirstAux_wrap "v0]".data "[outv]".data t hb
      rw [this]
      simp
    · intro hcon
      rcases List.isPrefixOf_iff_prefix.mp hcon with ⟨u, hu⟩
      simp only [List.cons_append, List.cons.injEq] at hu
      exact absurd hu.1 (by decide)
  · intro hcon
    rcases List.isPrefixOf_iff_prefix.mp hcon with ⟨u, hu⟩
    simp only [List.cons_append, List.cons.injEq] at hu
    exact absurd hu.2.1 (by decide)

theorem Chain0_renamed_SW2 {s : String} (h : Chain0 s) :
    SW2 (replaceFirstStr s "[v0]" "[outv]") '0' := by
  obtain ⟨t, ht, _⟩ := Chain0_replace h
  exact ⟨t ++ "[outv]".data, by rw [ht]; rfl⟩

theorem Chain0_renamed_RS2 {s : String} (h : Chain0 s) :
    RS2 (replaceFirstStr s "[v0]" "[outv]") 'v' := by
  obtain ⟨t, ht, _⟩ := Chain0_replace h
  refine ⟨"tuo[".data ++ (('[' :: '0' :: t).reverse), ?_⟩
  rw [ht, List.reverse_append]
  rfl

/-- The helper for assembling `Chain0` witnesses: a bracket-free piece prepended
to text ending in the `[v0]` pad. -/
theorem tailPad_cons (x : String) (hx : bracketFree x) {rest : String}
    (hrest : ∃ t, rest.data = t ++ "[v0]".data ∧ '[' ∉ t) :
    ∃ t, (x ++ rest).data = t ++ "[v0]".data ∧ '[' ∉ t := by
  obtain ⟨t, ht, hb⟩ := hrest
  refine ⟨x.data ++ t, ?_, ?_⟩
  · rw [String.data_append, ht, List.append_assoc]
  · intro hm
    rcases List.mem_append.mp hm with hm | hm
    · exact hx hm
    · exact hb hm

theorem tailPad_base : ∃ t, (("[v" ++ (natToStr 0 ++ "]")) : String).data = t ++ "[v0]".data
    ∧ '[' ∉ t :=
  ⟨[], by decide, by decide⟩

theorem Chain0_build {R : String} (hR : ∃ t, R.data = t ++ "[v0]".data ∧ '[' ∉ t) :
    Chain0 ("[" ++ (natToStr 0 ++ R)) := by
  obtain ⟨t, ht, hb⟩ := hR
  refine ⟨t, ?_, hb⟩
  rw [String.data_append, String.data_append, ht]
  rfl

theorem bracketFree_imageScalePart {bg : String} (hbg : bracketFree bg)
    (img : Resource) (W H : JNum) :
    bracketFree (jsTrim (buildScaleAndPositionFilter bg "" img W H)) :=
  bracketFree_jsTrim (bracketFree_buildScale hbg (by decide))

set_option maxHeartbeats 1600000 in
theorem imageFragment_Chain0 {bg : String} (hbg : bracketFree bg)
    (W H fps : JNum) (img : Resource) : Chain0 (imageFragment bg W H fps 0 img) := by
  unfold imageFragment
  dsimp only
  by_cases h1 : jsTrim (buildScaleAndPositionFilter bg "" img W H) ≠ ""
  · by_cases h2 : jsOrS img.transition "none" ≠ "none"
        ∧ 0 < (jsOrQ img.transitionDuration ⟨1, 2⟩).num
    · rw [if_pos h1, if_pos h2]
      simp only [String.append_assoc]
      apply Chain0_build
      apply tailPad_cons _ (by decide)
      apply tailPad_cons _ (by decide)
      apply tailPad_cons _ (bracketFree_imageScalePart hbg _ _ _)
      apply tailPad_cons _ (by decide)
      apply tailPad_cons _ (bracketFree_numToStr _)
      apply tailPad_cons _ (by decide)
      apply tailPad_cons _ (bracketFree_numToStr _)
      apply tailPad_cons _ (bracketFree_buildTransition hbg _ _ _ _ _ _ _)
      exact tailPad_base
    · rw [if_pos h1, if_neg h2]
      simp only [String.append_assoc]
      apply Chain0_build
      apply tailPad_cons _ (by decide)
      apply tailPad_cons _ (by decide)
      apply tailPad_cons _ (bracketFree_imageScalePart hbg _ _ _)
      apply tailPad_cons _ (by decide)
      apply tailPad_cons _ (bracketFree_numToStr _)
      apply tailPad_cons _ (by decide)
      apply tailPad_cons _ (bracketFree_numToStr _)
      exact tailPad_base
  · by_cases h2 : jsOrS img.transition "none" ≠ "none"
        ∧ 0 < (jsOrQ img.transitionDuration ⟨1, 2⟩).num
    · rw [if_neg h1, if_pos h2]
      simp only [String.append_assoc]
      apply Chain0_build
      apply tailPad_cons _ (by decide)
      apply tailPad_cons _ (by decide)
      apply tailPad_cons _ (bracketFree_numToStr _)
      apply tailPad_cons _ (by decide)
      apply tailPad_cons _ (bracketFree_numToStr _)
      apply tailPad_cons _ (bracketFree_buildTransition hbg _ _ _ _ _ _ _)
      exact tailPad_base
    · rw [if_neg h1, if_neg h2]
      simp only [String.append_assoc]
      apply Chain0_build
      apply tailPad_cons _ (by decide)
      apply tailPad_cons _ (by decide)
      apply tailPad_cons _ (bracketFree_numToStr _)
      apply tailPad_cons _ (by decide)
      apply tailPad_cons _ (bracketFree_numToStr _)
      exact tailPad_base

set_option maxHeartbeats 1600000 in
theorem videoFragment_Chain0 {bg : String} (hbg : bracketFree bg)
    (W H fps : JNum) (vid : Resource) : Chain0 (videoFragment bg W H fps 0 vid) := by
  unfold videoFragment buildScaleAndPositionFilter
  dsimp only
  by_cases h2 : jsOrS vid.transition "none" ≠ "none"
      ∧ 0 < (jsOrQ vid.transitionDuration ⟨1, 2⟩).num
  · rw [if_pos h2]
    simp only [String.append_assoc]
    apply Chain0_build
    apply tailPad_cons _ (by decide)
    apply tailPad_cons _ (bracketFree_scaleModeFilter _ _ _)
    apply tailPad_cons _ (by decide)
    apply tailPad_cons _ (bracketFree_numToStr _)
    apply tailPad_cons _ (by decide)
    apply tailPad_cons _ (bracketFree_numToStr _)
    apply tailPad_cons _ (by decide)
    apply tailPad_cons _ (bracketFree_padXFor _)
    apply tailPad_cons _ (by decide)
    apply tailPad_cons _ (bracketFree_padYFor _)
    apply tailPad_cons _ (by decide)
    apply tailPad_cons _ hbg
    apply tailPad_cons _ (bracketFree_rotateFilter hbg _ _ _)
    apply tailPad_cons _ (bracketFree_opacityFilter _)
    apply tailPad_cons _ (by decide)
    apply tailPad_cons _ (bracketFree_numToStr _)
    apply tailPad_cons _ (bracketFree_buildTransition hbg _ _ _ _ _ _ _)
    exact tailPad_base
  · rw [if_neg h2]
    simp only [String.append_assoc]
    apply Chain0_build
    apply tailPad_cons _ (by decide)
    apply tailPad_cons _ (bracketFree_scaleModeFilter _ _ _)
    apply tailPad_cons _ (by decide)
    apply tailPad_cons _ (bracketFree_numToStr _)
    apply tailPad_cons _ (by decide)
    apply tailPad_cons _ (bracketFree_numToStr _)
    apply tailPad_cons _ (by decide)
    apply tailPad_cons _ (bracketFree_padXFor _)
    apply tailPad_cons _ (by decide)
    apply tailPad_cons _ (bracketFree_padYFor _)
    apply tailPad_cons _ (by decide)
    apply tailPad_cons _ hbg
    apply tailPad_cons _ (bracketFree_rotateFilter hbg _ _ _)
    apply tailPad_cons _ (bracketFree_opacityFilter _)
    apply tailPad_cons _ (by decide)
    apply tailPad_cons _ (bracketFree_numToStr _)
    exact tailPad_base

/-- An audio fragment never ends with the pad `[v0]` (its pad is `[a<j>]`),
so the source's backward rename scan walks past every audio fragment. -/
theorem audioFragment_not_endsWith_v0 (j : ℕ) (aud : Resource) {s : String}
    (h : audioFragment? j aud = some s) : strEndsWith s "[v0]" = false := by
  unfold audioFragment? at h
  dsimp only at h
  split_ifs at h
  rw [← Option.some_inj.mp h]
  obtain ⟨c, l, hc, hmem⟩ := natToStr_rev_head j
  have hall : ∀ x ∈ (natToStr j).data.reverse, x ∈ digitChars := by
    intro x hx
    exact natToStr_data_shape j x (List.mem_reverse.mp hx)
  apply Bool.eq_false_iff.mpr
  intro hcon
  have hsuf : "[v0]".data <:+
      ("[" ++ natToStr j ++ ":a]" ++ ",".intercalate (audioFilters aud)
        ++ "[a" ++ natToStr j ++ "]").data :=
    List.isSuffixOf_iff_suffix.mp hcon
  rw [← List.reverse_prefix] at hsuf
  have hd : ("[" ++ natToStr j ++ ":a]" ++ ",".intercalate (audioFilters aud)
      ++ "[a" ++ natToStr j ++ "]").data.reverse
      = ']' :: (c :: l ++ ('a' :: '[' ::
        (("[" ++ natToStr j ++ ":a]" ++ ",".intercalate (audioFilters aud)).data.reverse))) := by
    simp only [String.data_append, List.reverse_append, hc]
    rfl
  rw [hd] at hsuf
  obtain ⟨u, hu⟩ := hsuf
  have : ']' :: '0' :: 'v' :: '[' :: u = ']' :: (c :: l ++ ('a' :: '[' ::
      (("[" ++ natToStr j ++ ":a]" ++ ",".intercalate (audioFilters aud)).data.reverse))) := by
    rw [← hu]; rfl
  simp only [List.cons.injEq] at this
  rcases this with ⟨h0, hrest⟩
  clear hu hd hcon h h0
  rcases l with - | ⟨d, l'⟩
  · simp only [List.singleton_append, List.cons.injEq] at hrest
    exact absurd hrest.2.1 (by decide)
  · simp only [List.cons_append, List.cons.injEq] at hrest
    have hdd : d ∈ digitChars :=
      hall d (hc ▸ List.mem_cons_of_mem c (List.mem_cons_self d l'))
    exact digit_notin_special hdd (by rw [← hrest.2.1]; decide)

/-- A fragment of `Chain0` shape ends with `[v0]`. -/
theorem renameFirst_append_last (pat rep : String) (l : List String) (x : String)
    (hl : ∀ y ∈ l, strEndsWith y pat = false) (hx : strEndsWith x pat = true) :
    renameFirst pat rep (l ++ [x]) = l ++ [replaceFirstStr x pat rep] := by
  induction l with
  | nil =>
    show renameFirst pat rep [x] = [replaceFirstStr x pat rep]
    unfold renameFirst
    rw [hx]
    simp
  | cons y ys ih =>
    show renameFirst pat rep (y :: (ys ++ [x])) = y :: (ys ++ [replaceFirstStr x pat rep])
    unfold renameFirst
    rw [hl y (List.mem_cons_self y ys)]
    simp only [Bool.false_eq_true, if_false]
    rw [ih (fun z hz => hl z (List.mem_cons_of_mem y hz))]

/-- The backward `[v0]` rename over `visual fragment :: audio fragments`
rewrites exactly the visual fragment. -/
theorem renameLastEnds_single (vfrag : String) (aFrags : List String)
    (ha : ∀ y ∈ aFrags, strEndsWith y "[v0]" = false)
    (hv : strEndsWith vfrag "[v0]" = true) :
    renameLastEnds (vfrag :: aFrags) "[v0]" "[outv]"
      = replaceFirstStr vfrag "[v0]" "[outv]" :: aFrags := by
  unfold renameLastEnds
  have : (vfrag :: aFrags).reverse = aFrags.reverse ++ [vfrag] := by
    simp [List.reverse_cons]
  rw [this, renameFirst_append_last _ _ _ _
    (fun y hy => ha y (List.mem_reverse.mp hy)) hv]
  simp [List.reverse_append]

theorem buildFC_eq (o : ComposeOptions) (rs : List Resource) :
    buildFC o rs =
      (if visualCount rs > 0 then
        (if visualCount rs = 1 then renameLastEnds (baseFrags o rs) (padV 0) "[outv]"
         else baseFrags o rs ++ [mkConcatEntry (visualCount rs)])
       else baseFrags o rs) ++ amixTail rs := by
  unfold buildFC baseFrags imageFrags videoFrags audioFrags amixTail visualCount audioLabels
  dsimp only
  by_cases hA : (audiosOf rs).length > 0
  · rw [if_pos hA, if_pos hA]
    rfl
  · rw [if_neg hA, if_neg hA, List.append_nil]

theorem composeVideo_ok {env : Env} {rs : List Resource} {out : String}
    {o : ComposeOptions} {res : ComposeResult}
    (h : composeVideo env rs out o = .ok res) :
    res.filterComplex = buildFC o rs ∧ res.args = buildArgs env rs out o := by
  unfold composeVideo at h
  repeat'
    first
    | (exact Except.noConfusion h)
    | split at h
  exact ⟨(congrArg ComposeResult.filterComplex (Except.ok.injEq .. ▸ h).symm),
    (congrArg ComposeResult.args (Except.ok.injEq .. ▸ h).symm)⟩

theorem composeVideo_ok_nonempty {env : Env} {rs : List Resource} {out : String}
    {o : ComposeOptions} {res : ComposeResult}
    (h : composeVideo env rs out o = .ok res) : rs ≠ [] := by
  intro hcon
  subst hcon
  unfold composeVideo at h
  cases hw : env.outputWritable <;> simp [hw] at h

theorem composeVideo_ok_visual {env : Env} {rs : List Resource} {out : String}
    {o : ComposeOptions} {res : ComposeResult}
    (h : composeVideo env rs out o = .ok res) : 1 ≤ visualCount rs := by
  by_contra hlt
  have h0 : visualCount rs = 0 := by omega
  unfold visualCount at h0
  have hi : imagesOf rs = [] := List.length_eq_zero.mp (by omega)
  have hv : videosOf rs = [] := List.length_eq_zero.mp (by omega)
  unfold composeVideo at h
  split at h
  · exact Except.noConfusion h
  split at h
  · exact Except.noConfusion h
  rcases hf : rs.find? (fun r => !env.fsExists r.path) with - | r <;> rw [hf] at h
  · rw [if_pos (by simp [hi, hv])] at h
    exact Except.noConfusion h
  · exact Except.noConfusion h

theorem mapIdxFrom_mem {α β : Type} {f : ℕ → α → β} {base : ℕ} {l : List α} {b : β}
    (h : b ∈ mapIdxFrom base f l) : ∃ j a, base ≤ j ∧ a ∈ l ∧ b = f j a := by
  induction l generalizing base with
  | nil => exact absurd h (by simp [mapIdxFrom])
  | cons a as ih =>
    rcases List.mem_cons.mp h with h' | h'
    · exact ⟨base, a, Nat.le_refl _, List.mem_cons_self a as, h'⟩
    · obtain ⟨j, a', hj, ha', hb⟩ := ih h'
      exact ⟨j, a', by omega, List.mem_cons_of_mem a ha', hb⟩

theorem audioFrags_mem {rs : List Resource} {s : String} (h : s ∈ audioFrags rs) :
    ∃ j aud, visualCount rs ≤ j ∧ audioFragment? j aud = some s := by
  unfold audioFrags at h
  rw [List.reduceOption_mem_iff] at h
  obtain ⟨j, aud, hj, _, hb⟩ := mapIdxFrom_mem h
  exact ⟨j, aud, hj, hb.symm⟩

/-- With exactly one visual resource, the pushed fragments are one visual
fragment (at input index 0) followed by the audio fragments. -/
theorem baseFrags_single {o : ComposeOptions} {rs : List Resource}
    (h1 : visualCount rs = 1) :
    ∃ vfrag, baseFrags o rs = vfrag :: audioFrags rs ∧
      ((∃ img, imagesOf rs = [img] ∧
          vfrag = imageFragment (bgColorHex o) (resolveWH o).1 (resolveWH o).2 (optFps o) 0 img)
       ∨ (∃ vid, videosOf rs = [vid] ∧
          vfrag = videoFragment (bgColorHex o) (resolveWH o).1 (resolveWH o).2 (optFps o) 0 vid)) := by
  unfold visualCount at h1
  unfold baseFrags imageFrags videoFrags
  rcases Nat.add_eq_one_iff.mp h1 with ⟨hi, hv⟩ | ⟨hi, hv⟩
  · obtain ⟨vid, hvid⟩ := List.length_eq_one.mp hv
    have hie : imagesOf rs = [] := List.length_eq_zero.mp hi
    refine ⟨videoFragment (bgColorHex o) (resolveWH o).1 (resolveWH o).2 (optFps o) 0 vid,
      ?_, Or.inr ⟨vid, hvid, rfl⟩⟩
    rw [hie, hvid]
    rfl
  · obtain ⟨img, himg⟩ := List.length_eq_one.mp hi
    have hve : videosOf rs = [] := List.length_eq_zero.mp hv
    refine ⟨imageFragment (bgColorHex o) (resolveWH o).1 (resolveWH o).2 (optFps o) 0 img,
      ?_, Or.inl ⟨img, himg, rfl⟩⟩
    rw [hve, himg]
    rfl

theorem padV_zero : (padV 0 : String) = "[v0]" := by decide

/-- With exactly one visual resource, the source's backward rename rewrites
that fragment's pad `[v0]` to `[outv]` and leaves all audio fragments alone. -/
theorem buildFC_single {o : ComposeOptions} {rs : List Resource}
    (hbg : bracketFree (bgColorHex o)) (h1 : visualCount rs = 1) :
    ∃ vfrag, baseFrags o rs = vfrag :: audioFrags rs ∧ Chain0 vfrag ∧
      buildFC o rs = replaceFirstStr vfrag "[v0]" "[outv]" :: audioFrags rs ++ amixTail rs := by
  obtain ⟨vfrag, hbase, hkind⟩ := baseFrags_single (o := o) h1
  have hchain : Chain0 vfrag := by
    rcases hkind with ⟨img, -, rfl⟩ | ⟨vid, -, rfl⟩
    · exact imageFragment_Chain0 hbg _ _ _ _
    · exact videoFragment_Chain0 hbg _ _ _ _
  refine ⟨vfrag, hbase, hchain, ?_⟩
  rw [buildFC_eq, if_pos (by omega), if_pos h1, hbase, padV_zero]
  rw [renameLastEnds_single _ _ ?haud (Chain0_endsWith hchain)]
  case haud =>
    intro y hy
    obtain ⟨j, aud, -, hsome⟩ := audioFrags_mem hy
    exact audioFragment_not_endsWith_v0 j aud hsome

theorem mkConcatEntry_zero : mkConcatEntry 0 = "concat=n=0:v=1:a=0[outv]" := by decide

/-- An entry that starts `'['` + digit is never a concat entry (those start
`"[v0]"` for `n ≥ 1, or `"concat="` for the impossible `n = 0`). -/
theorem SW2_digit_ne_concat {s : String} {c : Char} (hc : c ∈ digitChars)
    (hs : SW2 s c) (k : ℕ) : s ≠ mkConcatEntry k := by
  cases k with
  | zero =>
    intro he
    rw [he, mkConcatEntry_zero] at hs
    obtain ⟨r, hr⟩ := hs
    have : ("concat=n=0:v=1:a=0[outv]" : String).data.head? = some 'c' := by decide
    rw [hr] at this
    exact absurd (Option.some_inj.mp this) (by decide)
  | succ m =>
    exact ne_of_SW2 hs (mkConcatEntry_SW2 (Nat.succ_le_succ (Nat.zero_le m)))
      (fun hcon => digit_notin_special hc (by rw [hcon]; decide))

theorem amix_ne_concat (labels : List String) (nA k : ℕ) :
    mkAmixEntry labels nA ≠ mkConcatEntry k :=
  ne_of_RS2 (mkAmixEntry_RS2 labels nA) (mkConcatEntry_RS2 k) (by decide)

theorem baseFrags_mem {o : ComposeOptions} {rs : List Resource} {s : String}
    (h : s ∈ baseFrags o rs) :
    (∃ c, c ∈ digitChars ∧ SW2 s c) := by
  unfold baseFrags at h
  rcases List.mem_append.mp h with h' | h'
  · rcases List.mem_append.mp h' with h'' | h''
    · obtain ⟨j, a, -, -, hb⟩ := mapIdxFrom_mem h''
      exact hb ▸ imageFragment_SW2 _ _ _ _ j a
    · obtain ⟨j, a, -, -, hb⟩ := mapIdxFrom_mem h''
      exact hb ▸ videoFragment_SW2 _ _ _ _ j a
  · obtain ⟨j, aud, -, hsome⟩ := audioFrags_mem h'
    exact audioFragment_SW2 j aud hsome

theorem amixTail_mem {rs : List Resource} {s : String} (h : s ∈ amixTail rs) :
    s = mkAmixEntry (audioLabels rs) (audiosOf rs).length := by
  unfold amixTail at h
  split_ifs at h
  · exact List.mem_singleton.mp h
  · exact absurd h (List.not_mem_nil s)

/-- No entry of the graph built for a single visual resource is a concat
entry, for any input count. -/
theorem buildFC_single_no_concat {o : ComposeOptions} {rs : List Resource}
    (hbg : bracketFree (bgColorHex o)) (h1 : visualCount rs = 1) :
    ∀ k, mkConcatEntry k ∉ buildFC o rs := by
  obtain ⟨vfrag, hbase, hchain, heq⟩ := buildFC_single hbg h1
  intro k hk
  rw [heq] at hk
  rcases List.mem_cons.mp hk with h' | h'
  · exact SW2_digit_ne_concat (by decide) (Chain0_renamed_SW2 hchain) k h'.symm
  · rcases List.mem_append.mp h' with h'' | h''
    · obtain ⟨j, aud, -, hsome⟩ := audioFrags_mem h''
      obtain ⟨c, hc, hsw⟩ := audioFragment_SW2 j aud hsome
      exact SW2_digit_ne_concat hc hsw k rfl
    · exact amix_ne_concat _ _ k (amixTail_mem h'').symm

theorem buildFC_multi {o : ComposeOptions} {rs : List Resource}
    (h2 : 2 ≤ visualCount rs) :
    buildFC o rs = baseFrags o rs ++ [mkConcatEntry (visualCount rs)] ++ amixTail rs := by
  rw [buildFC_eq, if_pos (by omega : visualCount rs > 0), if_neg (by omega : ¬visualCount rs = 1)]

/-- In the multi-visual graph the concat entry occurs exactly once. -/
theorem buildFC_multi_concat_count {o : ComposeOptions} {rs : List Resource}
    (h2 : 2 ≤ visualCount rs) :
    (buildFC o rs).count (mkConcatEntry (visualCount rs)) = 1 := by
  rw [buildFC_multi h2, List.count_append, List.count_append]
  have hb : (baseFrags o rs).count (mkConcatEntry (visualCount rs)) = 0 := by
    rw [List.count_eq_zero]
    intro hmem
    obtain ⟨c, hc, hsw⟩ := baseFrags_mem hmem
    exact SW2_digit_ne_concat hc hsw (visualCount rs) rfl
  have ha : (amixTail rs).count (mkConcatEntry (visualCount rs)) = 0 := by
    rw [List.count_eq_zero]
    intro hmem
    exact amix_ne_concat _ _ (visualCount rs) (amixTail_mem hmem).symm
  rw [hb, ha]
  simp

theorem padV_inj {i j : ℕ} (h : padV i = padV j) : i = j := by
  unfold padV at h
  have hd := congrArg String.data h
  simp only [String.data_append, List.append_assoc] at hd
  have h1 : (natToStr i).data ++ [']'] = (natToStr j).data ++ [']'] :=
    List.append_cancel_left hd
  exact natToStr_inj (String.ext (List.append_cancel_right h1))

theorem padA_inj {i j : ℕ} (h : padA i = padA j) : i = j := by
  unfold padA at h
  have hd := congrArg String.data h
  simp only [String.data_append, List.append_assoc] at hd
  have h1 : (natToStr i).data ++ [']'] = (natToStr j).data ++ [']'] :=
    List.append_cancel_left hd
  exact natToStr_inj (String.ext (List.append_cancel_right h1))

theorem padV_SW2 (i : ℕ) : SW2 (padV i) 'v' := by
  obtain ⟨c, l, hc, -⟩ := natToStr_head i
  refine ⟨c :: (l ++ [']']), ?_⟩
  unfold padV
  simp only [String.data_append, List.append_assoc, hc]
  rfl

theorem padA_SW2 (i : ℕ) : SW2 (padA i) 'a' := by
  obtain ⟨c, l, hc, -⟩ := natToStr_head i
  refine ⟨c :: (l ++ [']']), ?_⟩
  unfold padA
  simp only [String.data_append, List.append_assoc, hc]
  rfl

theorem outv_SW2 : SW2 "[outv]" 'o' := ⟨"utv]".data, by decide⟩

theorem outa_SW2 : SW2 "[outa]" 'o' := ⟨"uta]".data, by decide⟩

theorem audioPads_mem {base : ℕ} {l : List Resource} {s : String}
    (h : s ∈ (mapIdxFrom base
      (fun i a => if audioFilters a ≠ [] then some (padA i) else none) l).reduceOption) :
    ∃ j, base ≤ j ∧ s = padA j := by
  rw [List.reduceOption_mem_iff] at h
  obtain ⟨j, a, hj, -, hb⟩ := mapIdxFrom_mem h
  by_cases hfa : audioFilters a ≠ []
  · rw [if_pos hfa] at hb
    exact ⟨j, hj, Option.some_inj.mp hb⟩
  · rw [if_neg hfa] at hb
    exact absurd hb (by simp)

theorem audioPads_nodup (base : ℕ) (l : List Resource) :
    ((mapIdxFrom base
      (fun i a => if audioFilters a ≠ [] then some (padA i) else none) l).reduceOption).Nodup := by
  induction l generalizing base with
  | nil => exact List.nodup_nil
  | cons a as ih =>
    show (((if audioFilters a ≠ [] then some (padA base) else none) ::
      mapIdxFrom (base + 1) _ as).reduceOption).Nodup
    by_cases hfa : audioFilters a ≠ []
    · rw [if_pos hfa]
      rw [List.reduceOption_cons_of_some]
      refine List.Nodup.cons ?_ (ih (base + 1))
      intro hmem
      obtain ⟨j, hj, he⟩ := audioPads_mem hmem
      have := padA_inj he
      omega
    · rw [if_neg hfa]
      rw [List.reduceOption_cons_of_none]
      exact ih (base + 1)

theorem visualPads_shape {rs : List Resource} {p : String}
    (hp : p ∈ (if visualCount rs = 1 then ["[outv]"]
      else (List.range (visualCount rs)).map padV ++ ["[outv]"])) :
    SW2 p 'v' ∨ p = "[outv]" := by
  split_ifs at hp
  · exact Or.inr (List.mem_singleton.mp hp)
  · rcases List.mem_append.mp hp with h' | h'
    · obtain ⟨i, -, hpi⟩ := List.mem_map.mp h'
      exact Or.inl (hpi ▸ padV_SW2 i)
    · exact Or.inr (List.mem_singleton.mp h')

theorem padsAssigned_nodup (rs : List Resource) : (padsAssigned rs).Nodup := by
  unfold padsAssigned
  rw [List.nodup_append, List.nodup_append]
  refine ⟨⟨?_, ?_, ?_⟩, ?_, ?_⟩
  · -- the visual pads
    split_ifs
    · simp
    · rw [List.nodup_append]
      refine ⟨List.Nodup.map (fun a b h => padV_inj h) (List.nodup_range _), by simp, ?_⟩
      intro p hp
      obtain ⟨i, -, hpi⟩ := List.mem_map.mp hp
      simp only [List.mem_singleton, List.not_mem_nil, or_false]
      intro hcon
      exact ne_of_SW2 (padV_SW2 i) outv_SW2 (by decide) (hpi ▸ hcon)
  · -- the audio pads
    exact audioPads_nodup _ _
  · -- visual pads vs audio pads
    intro p hp hcon
    obtain ⟨j, -, hpj⟩ := audioPads_mem hcon
    rcases visualPads_shape hp with hsw | rfl
    · exact ne_of_SW2 hsw (padA_SW2 j) (by decide) hpj
    · exact ne_of_SW2 outv_SW2 (padA_SW2 j) (by decide) hpj
  · -- [outa] singleton
    split_ifs <;> simp
  · -- earlier pads vs [outa]
    intro p hp hcon
    have hpa : p = "[outa]" := by
      split_ifs at hcon
      · exact List.mem_singleton.mp hcon
      · exact absurd hcon (List.not_mem_nil p)
    rcases List.mem_append.mp hp with h' | h'
    · rcases visualPads_shape h' with hsw | rfl
      · exact ne_of_SW2 hsw outa_SW2 (by decide) hpa
      · exact absurd hpa (by decide)
    · obtain ⟨j, -, hpj⟩ := audioPads_mem h'
      exact ne_of_SW2 (padA_SW2 j) outa_SW2 (by decide) (hpa ▸ hpj ▸ rfl)

/-! ## Toolkit: locating pads inside graph entries -/

theorem joinAll_split {a : String} {l : List String} (h : a ∈ l) :
    ∃ x y : String, joinAll l = x ++ (a ++ y) := by
  induction l with
  | nil => exact absurd h (List.not_mem_nil a)
  | cons b rest ih =>
    rcases List.mem_cons.mp h with rfl | h'
    · refine ⟨"", joinAll rest, ?_⟩
      apply String.ext
      simp [joinAll, String.data_append]
    · obtain ⟨x, y, hxy⟩ := ih h'
      refine ⟨b ++ x, y, ?_⟩
      show b ++ joinAll rest = _
      rw [hxy, String.append_assoc]

theorem audioPads_link (base : ℕ) (l : List Resource) :
    ∀ p ∈ (mapIdxFrom base
      (fun i a => if audioFilters a ≠ [] then some (padA i) else none) l).reduceOption,
    ∃ s ∈ (mapIdxFrom base audioFragment? l).reduceOption, p.data <:+: s.data := by
  induction l generalizing base with
  | nil =>
    intro p hp
    exact absurd hp (by simp [mapIdxFrom])
  | cons a as ih =>
    intro p hp
    rw [show mapIdxFrom base
        (fun i a => if audioFilters a ≠ [] then some (padA i) else none) (a :: as)
      = (if audioFilters a ≠ [] then some (padA base) else none)
        :: mapIdxFrom (base + 1)
            (fun i a => if audioFilters a ≠ [] then some (padA i) else none) as from rfl] at hp
    rw [show mapIdxFrom base audioFragment? (a :: as)
      = audioFragment? base a :: mapIdxFrom (base + 1) audioFragment? as from rfl]
    by_cases hfa : audioFilters a ≠ []
    · rw [if_pos hfa, List.reduceOption_cons_of_some] at hp
      have hfrag : audioFragment? base a
          = some ("[" ++ natToStr base ++ ":a]" ++ String.intercalate "," (audioFilters a)
              ++ "[a" ++ natToStr base ++ "]") := by
        unfold audioFragment?
        dsimp only
        rw [if_pos hfa]
      rw [hfrag, List.reduceOption_cons_of_some]
      rcases List.mem_cons.mp hp with rfl | hp'
      · refine ⟨_, List.mem_cons_self _ _, ?_⟩
        refine ⟨("[" ++ natToStr base ++ ":a]"
          ++ String.intercalate "," (audioFilters a)).data, [], ?_⟩
        simp [padA, String.data_append, List.append_assoc]
      · obtain ⟨s, hs, hinf⟩ := ih (base + 1) p hp'
        exact ⟨s, List.mem_cons_of_mem _ hs, hinf⟩
    · rw [if_neg hfa, List.reduceOption_cons_of_none] at hp
      have hfrag : audioFragment? base a = none := by
        unfold audioFragment?
        dsimp only
        rw [if_neg hfa]
      rw [hfrag, List.reduceOption_cons_of_none]
      exact ih (base + 1) p hp

theorem amixTail_sub_buildFC {o : ComposeOptions} {rs : List Resource} {s : String}
    (h : s ∈ amixTail rs) : s ∈ buildFC o rs := by
  rw [buildFC_eq]
  exact List.mem_append_right _ h

theorem audioFrags_sub_buildFC {o : ComposeOptions} {rs : List Resource}
    (hbg : bracketFree (bgColorHex o)) (h1 : 1 ≤ visualCount rs) {s : String}
    (h : s ∈ audioFrags rs) : s ∈ buildFC o rs := by
  by_cases h1' : visualCount rs = 1
  · obtain ⟨vfrag, -, -, heq⟩ := buildFC_single hbg h1'
    rw [heq]
    exact List.mem_cons_of_mem _ (List.mem_append_left _ h)
  · have h2 : 2 ≤ visualCount rs := by omega
    rw [buildFC_multi h2]
    refine List.mem_append_left _ (List.mem_append_left _ ?_)
    unfold baseFrags
    exact List.mem_append_right _ h

theorem outv_mem_padsAssigned (rs : List Resource) : "[outv]" ∈ padsAssigned rs := by
  unfold padsAssigned
  refine List.mem_append_left _ (List.mem_append_left _ ?_)
  split_ifs
  · exact List.mem_singleton.mpr rfl
  · exact List.mem_append_right _ (List.mem_singleton.mpr rfl)

theorem padsAssigned_link {o : ComposeOptions} {rs : List Resource}
    (hbg : bracketFree (bgColorHex o)) (h1 : 1 ≤ visualCount rs) :
    ∀ p ∈ padsAssigned rs, ∃ s ∈ buildFC o rs, p.data <:+: s.data := by
  intro p hp
  unfold padsAssigned at hp
  rcases List.mem_append.mp hp with hAB | hC
  rcases List.mem_append.mp hAB with hA | hB
  · -- a visual pad
    by_cases h1' : visualCount rs = 1
    · rw [if_pos h1'] at hA
      have hpv : p = "[outv]" := List.mem_singleton.mp hA
      obtain ⟨vfrag, hbase, hchain, heq⟩ := buildFC_single hbg h1'
      obtain ⟨t, hdata, -⟩ := Chain0_replace hchain
      refine ⟨replaceFirstStr vfrag "[v0]" "[outv]", ?_, ?_⟩
      · rw [heq]
        exact List.mem_cons_self _ _
      · rw [hpv]
        exact ⟨'[' :: '0' :: t, [], by rw [hdata]; simp⟩
    · rw [if_neg h1'] at hA
      have h2 : 2 ≤ visualCount rs := by omega
      refine ⟨mkConcatEntry (visualCount rs), ?_, ?_⟩
      · rw [buildFC_multi h2]
        exact List.mem_append_left _ (List.mem_append_right _ (List.mem_singleton.mpr rfl))
      · rcases List.mem_append.mp hA with hPv | hOutv
        · obtain ⟨x, y, hxy⟩ := joinAll_split hPv
          refine ⟨x.data, (y ++ "concat=n=" ++ natToStr (visualCount rs)
            ++ ":v=1:a=0[outv]").data, ?_⟩
          simp [mkConcatEntry, hxy, String.data_append, List.append_assoc]
        · have hpv : p = "[outv]" := List.mem_singleton.mp hOutv
          rw [hpv]
          refine ⟨(joinAll ((List.range (visualCount rs)).map padV) ++ "concat=n="
            ++ natToStr (visualCount rs)).data ++ (":v=1:a=0" : String).data, [], ?_⟩
          have hsplit : (":v=1:a=0[outv]" : String).data
              = (":v=1:a=0" : String).data ++ ("[outv]" : String).data := by decide
          simp [mkConcatEntry, String.data_append, List.append_assoc, hsplit]
  · -- a filtered audio pad
    obtain ⟨s, hs, hinf⟩ := audioPads_link (visualCount rs) (audiosOf rs) p hB
    exact ⟨s, audioFrags_sub_buildFC hbg h1 hs, hinf⟩
  · -- the mix output pad
    split_ifs at hC with hA0
    · have hpa : p = "[outa]" := List.mem_singleton.mp hC
      refine ⟨mkAmixEntry (audioLabels rs) (audiosOf rs).length, amixTail_sub_buildFC ?_, ?_⟩
      · unfold amixTail
        rw [if_pos hA0]
        exact List.mem_singleton.mpr rfl
      · rw [hpa]
        refine ⟨(joinAll (audioLabels rs) ++ "amix=inputs="
          ++ natToStr (audiosOf rs).length).data
          ++ (":duration=longest:dropout_transition=2" : String).data, [], ?_⟩
        have hsplit : (":duration=longest:dropout_transition=2[outa]" : String).data
            = (":duration=longest:dropout_transition=2" : String).data
              ++ ("[outa]" : String).data := by decide
        simp [mkAmixEntry, String.data_append, List.append_assoc, hsplit]
    · exact absurd hC (List.not_mem_nil p)

theorem mapTargets_cons_ne {a : String} (h : ¬a = "-map") (l : List String) :
    mapTargets (a :: l) = mapTargets l := by
  cases l with
  | nil => rfl
  | cons b rest =>
    show (if a = "-map" then b :: mapTargets rest else mapTargets (b :: rest)) = _
    rw [if_neg h]

theorem mapTargets_cons_map (b : String) (l : List String) :
    mapTargets ("-map" :: b :: l) = b :: mapTargets l := by
  show (if ("-map" : String) = "-map" then b :: mapTargets l else mapTargets (b :: l)) = _
  rw [if_pos rfl]

theorem numToStr_ne_dashmap (q : JNum) : numToStr q ≠ "-map" := by
  intro h
  have hm : 'm' ∈ (numToStr q).data := by
    rw [h]
    decide
  have := numToStr_data_shape q 'm' hm
  revert this
  decide

theorem natColon_ne (c' : Char) {n : ℕ} {suf t : String}
    (ht : t.data.head? = some c') (hnd : c' ∉ digitChars)
    (h : natToStr n ++ suf = t) : False := by
  obtain ⟨c, l, hc, hcd⟩ := natToStr_head n
  have hd := congrArg String.data h
  rw [String.data_append, hc] at hd
  rw [← hd] at ht
  exact hnd (Option.some_inj.mp ht ▸ hcd)

theorem mapTargets_codec_append {o : ComposeOptions} (hac : optAudioCodec o ≠ "-map")
    (hab : optAudioBitrate o ≠ "-map") (l : List String) :
    mapTargets (audioCodecArgs o ++ l) = mapTargets l := by
  unfold audioCodecArgs
  split_ifs
  · simp only [List.cons_append, List.nil_append]
    rw [mapTargets_cons_ne (by decide), mapTargets_cons_ne hac,
      mapTargets_cons_ne (by decide), mapTargets_cons_ne hab,
      mapTargets_cons_ne (by decide), mapTargets_cons_ne (numToStr_ne_dashmap _),
      mapTargets_cons_ne (by decide), mapTargets_cons_ne (numToStr_ne_dashmap _)]
  · simp only [List.cons_append, List.nil_append]
    rw [mapTargets_cons_ne (by decide), mapTargets_cons_ne (by decide)]

theorem mapTargets_mapArgs {o : ComposeOptions} {rs : List Resource}
    (hv : 0 < visualCount rs) (hac : optAudioCodec o ≠ "-map")
    (hab : optAudioBitrate o ≠ "-map") :
    mapTargets (mapArgs o rs) =
      if (audiosOf rs).length > 0 then ["[outv]", "[outa]"]
      else if (videosOf rs).length > 0 then
        ["[outv]", natToStr (imagesOf rs).length ++ ":a?"]
      else ["[outv]"] := by
  unfold mapArgs
  rw [if_pos hv]
  by_cases hA : (audiosOf rs).length > 0
  · rw [if_pos hA, if_pos hA]
    simp only [List.cons_append, List.nil_append]
    rw [mapTargets_cons_map, mapTargets_codec_append hac hab, mapTargets_cons_map]
    rfl
  · rw [if_neg hA, if_neg hA]
    by_cases hV : (videosOf rs).length > 0
    · rw [if_pos hV, if_pos hV]
      simp only [List.cons_append, List.nil_append]
      rw [mapTargets_cons_map, mapTargets_cons_map,
        ← List.append_nil (audioCodecArgs o), mapTargets_codec_append hac hab]
      rfl
    · rw [if_neg hV, if_neg hV]
      simp only [List.cons_append, List.nil_append, List.append_nil]
      rw [mapTargets_cons_map]
      rfl

/-! ## Toolkit: the amix entry against the other graph entries -/

theorem RS2_unique {s : String} {c₁ c₂ : Char} (h₁ : RS2 s c₁) (h₂ : RS2 s c₂) : c₁ = c₂ := by
  obtain ⟨r₁, e₁⟩ := h₁
  obtain ⟨r₂, e₂⟩ := h₂
  rw [e₁] at e₂
  injection e₂ with h1 h2
  injection h2 with h3 h4

theorem digit_ne {c : Char} (hc : c ∈ digitChars) {d : Char}
    (hd : d ∈ (['[', ']', 'v', 'a', 'o', 'c', ':', ','] : List Char)) : c ≠ d :=
  fun h => digit_notin_special hc (h ▸ hd)

theorem baseFrags_RS2 {o : ComposeOptions} {rs : List Resource} {s : String}
    (h : s ∈ baseFrags o rs) : ∃ c, c ∈ digitChars ∧ RS2 s c := by
  unfold baseFrags at h
  rcases List.mem_append.mp h with h' | h'
  · rcases List.mem_append.mp h' with h'' | h''
    · unfold imageFrags at h''
      obtain ⟨j, a, -, -, hb⟩ := mapIdxFrom_mem h''
      exact hb ▸ imageFragment_RS2 _ _ _ _ j a
    · unfold videoFrags at h''
      obtain ⟨j, a, -, -, hb⟩ := mapIdxFrom_mem h''
      exact hb ▸ videoFragment_RS2 _ _ _ _ j a
  · obtain ⟨j, aud, -, hsome⟩ := audioFrags_mem h'
    exact audioFragment_RS2 j aud hsome

theorem amix_ne_baseFrag {o : ComposeOptions} {rs : List Resource} {s : String}
    (h : s ∈ baseFrags o rs) (labels : List String) (nA : ℕ) :
    mkAmixEntry labels nA ≠ s := by
  intro hcon
  obtain ⟨c, hc, hrs2⟩ := baseFrags_RS2 h
  rw [← hcon] at hrs2
  exact digit_ne hc
    (show ('a' : Char) ∈ (['[', ']', 'v', 'a', 'o', 'c', ':', ','] : List Char) by decide)
    (RS2_unique hrs2 (mkAmixEntry_RS2 labels nA))

/-- With no audio resource the graph carries no amix entry at all. -/
theorem buildFC_no_amix {o : ComposeOptions} {rs : List Resource}
    (hbg : bracketFree (bgColorHex o)) (hA : (audiosOf rs).length = 0) :
    ∀ labels nA, mkAmixEntry labels nA ∉ buildFC o rs := by
  intro labels nA hmem
  have htail : amixTail rs = [] := by
    unfold amixTail
    rw [if_neg (by omega)]
  by_cases hv1 : visualCount rs = 1
  · obtain ⟨vfrag, hb, hchain, heq⟩ := buildFC_single hbg hv1
    rw [heq, htail, List.append_nil] at hmem
    rcases List.mem_cons.mp hmem with he | hmem'
    · exact ne_of_RS2 (mkAmixEntry_RS2 _ _) (Chain0_renamed_RS2 hchain) (by decide) he
    · have hae : audioFrags rs = [] := by
        unfold audioFrags
        rw [show audiosOf rs = [] from List.length_eq_zero.mp hA]
        rfl
      rw [hae] at hmem'
      exact absurd hmem' (List.not_mem_nil _)
  · by_cases hv0 : visualCount rs = 0
    · rw [buildFC_eq, if_neg (by omega), htail, List.append_nil] at hmem
      exact amix_ne_baseFrag hmem labels nA rfl
    · have h2 : 2 ≤ visualCount rs := by omega
      rw [buildFC_multi h2, htail, List.append_nil] at hmem
      rcases List.mem_append.mp hmem with h' | h'
      · exact amix_ne_baseFrag h' labels nA rfl
      · exact amix_ne_concat labels nA (visualCount rs) (List.mem_singleton.mp h')

/-- With audio resources present the amix entry occurs exactly once. -/
theorem buildFC_amix_count {o : ComposeOptions} {rs : List Resource}
    (hbg : bracketFree (bgColorHex o)) (h1 : 1 ≤ visualCount rs)
    (hA : 0 < (audiosOf rs).length) :
    (buildFC o rs).count (mkAmixEntry (audioLabels rs) (audiosOf rs).length) = 1 := by
  have htail : (amixTail rs).count (mkAmixEntry (audioLabels rs) (audiosOf rs).length) = 1 := by
    unfold amixTail
    rw [if_pos hA]
    simp
  by_cases hv1 : visualCount rs = 1
  · obtain ⟨vfrag, hb, hchain, heq⟩ := buildFC_single hbg hv1
    rw [heq]
    rw [show (replaceFirstStr vfrag "[v0]" "[outv]" :: audioFrags rs) ++ amixTail rs
      = replaceFirstStr vfrag "[v0]" "[outv]" :: (audioFrags rs ++ amixTail rs) from rfl]
    rw [List.count_cons_of_ne
      (ne_of_RS2 (mkAmixEntry_RS2 _ _) (Chain0_renamed_RS2 hchain) (by decide))]
    rw [List.count_append, htail]
    have h0 : (audioFrags rs).count (mkAmixEntry (audioLabels rs) (audiosOf rs).length) = 0 := by
      rw [List.count_eq_zero]
      intro hmem
      have : mkAmixEntry (audioLabels rs) (audiosOf rs).length ∈ baseFrags o rs := by
        rw [hb]
        exact List.mem_cons_of_mem _ hmem
      exact amix_ne_baseFrag this _ _ rfl
    rw [h0]
  · have h2 : 2 ≤ visualCount rs := by omega
    rw [buildFC_multi h2, List.count_append, List.count_append, htail]
    have h0 : (baseFrags o rs).count (mkAmixEntry (audioLabels rs) (audiosOf rs).length) = 0 := by
      rw [List.count_eq_zero]
      intro hmem
      exact amix_ne_baseFrag hmem _ _ rfl
    have hc : ([mkConcatEntry (visualCount rs)]).count
        (mkAmixEntry (audioLabels rs) (audiosOf rs).length) = 0 := by
      rw [List.count_eq_zero]
      intro hmem
      exact amix_ne_concat _ _ (visualCount rs) (List.mem_singleton.mp hmem)
    rw [h0, hc]

/-! ## Toolkit: the shape of the argument list -/

theorem flatMap_split {α β : Type} {a : α} {l : List α} (f : α → List β) (h : a ∈ l) :
    ∃ x y, l.flatMap f = x ++ (f a ++ y) := by
  induction l with
  | nil => exact absurd h (List.not_mem_nil a)
  | cons b rest ih =>
    rcases List.mem_cons.mp h with rfl | h'
    · exact ⟨[], rest.flatMap f, by simp⟩
    · obtain ⟨x, y, hxy⟩ := ih h'
      exact ⟨f b ++ x, y, by simp [hxy]⟩

/-- The argument list, flattened: the `-y` flag, the three input blocks, the
graph, the codec flags, the mappings, and the destination path last. -/
theorem buildArgs_decomp (env : Env) (rs : List Resource) (out : String)
    (o : ComposeOptions) :
    buildArgs env rs out o
      = ("-y" :: ((imagesOf rs).flatMap (imageInputArgs env.cwd)
          ++ (videosOf rs).flatMap (avInputArgs env.cwd)
          ++ (audiosOf rs).flatMap (avInputArgs env.cwd)
          ++ (if buildFC o rs ≠ [] then
                ["-filter_complex", String.intercalate ";" (buildFC o rs)] else [])
          ++ videoCodecArgs o
          ++ mapArgs o rs)) ++ [resolvePath env.cwd out] := by
  unfold buildArgs
  simp [List.cons_append, List.append_assoc]

theorem buildArgs_head (env : Env) (rs : List Resource) (out : String)
    (o : ComposeOptions) : (buildArgs env rs out o).head? = some "-y" := by
  rw [buildArgs_decomp]
  rfl

theorem buildArgs_last (env : Env) (rs : List Resource) (out : String)
    (o : ComposeOptions) :
    (buildArgs env rs out o).getLast? = some (resolvePath env.cwd out) := by
  rw [buildArgs_decomp, List.getLast?_concat]

theorem args_map_section (env : Env) (rs : List Resource) (out : String)
    (o : ComposeOptions) :
    ∃ pre, buildArgs env rs out o
      = pre ++ (mapArgs o rs ++ [resolvePath env.cwd out]) := by
  refine ⟨"-y" :: ((imagesOf rs).flatMap (imageInputArgs env.cwd)
      ++ (videosOf rs).flatMap (avInputArgs env.cwd)
      ++ (audiosOf rs).flatMap (avInputArgs env.cwd)
      ++ (if buildFC o rs ≠ [] then
            ["-filter_complex", String.intercalate ";" (buildFC o rs)] else [])
      ++ videoCodecArgs o), ?_⟩
  rw [buildArgs_decomp]
  simp [List.cons_append, List.append_assoc]

theorem buildArgs_av_input {env : Env} {rs : List Resource} {out : String}
    {o : ComposeOptions} {r : Resource} (h : r ∈ videosOf rs ∨ r ∈ audiosOf rs) :
    ∃ x y, buildArgs env rs out o
      = x ++ ((seekDurArgs r ++ ["-i", resolvePath env.cwd r.path]) ++ y) := by
  rcases h with h | h
  · obtain ⟨x₀, y₀, hxy⟩ := flatMap_split (avInputArgs env.cwd) h
    refine ⟨"-y" :: ((imagesOf rs).flatMap (imageInputArgs env.cwd) ++ x₀),
      y₀ ++ ((audiosOf rs).flatMap (avInputArgs env.cwd)
        ++ (if buildFC o rs ≠ [] then
              ["-filter_complex", String.intercalate ";" (buildFC o rs)] else [])
        ++ videoCodecArgs o ++ mapArgs o rs ++ [resolvePath env.cwd out]), ?_⟩
    rw [buildArgs_decomp, hxy]
    simp [avInputArgs, List.cons_append, List.append_assoc]
  · obtain ⟨x₀, y₀, hxy⟩ := flatMap_split (avInputArgs env.cwd) h
    refine ⟨"-y" :: ((imagesOf rs).flatMap (imageInputArgs env.cwd)
        ++ (videosOf rs).flatMap (avInputArgs env.cwd) ++ x₀),
      y₀ ++ ((if buildFC o rs ≠ [] then
              ["-filter_complex", String.intercalate ";" (buildFC o rs)] else [])
        ++ videoCodecArgs o ++ mapArgs o rs ++ [resolvePath env.cwd out]), ?_⟩
    rw [buildArgs_decomp, hxy]
    simp [avInputArgs, List.cons_append, List.append_assoc]

theorem seekDurArgs_pos {r : Resource} {s d : JNum} (hs : r.startTime = some s)
    (hsp : 0 < s.num) (hd : r.duration = some d) (hdp : 0 < d.num) :
    seekDurArgs r = ["-ss", numToStr s, "-t", numToStr d] := by
  unfold seekDurArgs
  simp only [hs, hd]
  rw [if_pos hsp, if_pos hdp]
  rfl

theorem unlinkSync_cases (disk : List String) (p : String) :
    (p ∈ disk ∧ unlinkSync disk p = .ok (disk.erase p))
      ∨ (p ∉ disk ∧ unlinkSync disk p = .error ()) := by
  unfold unlinkSync
  by_cases hp : p ∈ disk
  · exact Or.inl ⟨hp, by rw [if_pos hp]⟩
  · exact Or.inr ⟨hp, by rw [if_neg hp]⟩

/-! ## The claims -/

/-- C1. For every resource list accepted by `composeVideo`: with exactly one
visual resource the graph contains no concat entry and the head entry is the
visual fragment with its `[v0]` pad rewritten to `[outv]`; with two or more
visual resources the graph contains exactly one concat entry, which reads the
pads `[v0]…[v<n-1>]` in pad-index order and specifies `a=0`. (The pads feed
fragments in images-then-videos push order, not original resource order — see
the counterexample.) -/
theorem C1_concat_shape {env : Env} {rs : List Resource} {out : String}
    {o : ComposeOptions} {res : ComposeResult} (hbg : bracketFree (bgColorHex o))
    (h : composeVideo env rs out o = .ok res) :
    (visualCount rs = 1 →
      (∀ k, mkConcatEntry k ∉ res.filterComplex) ∧
      ∃ vfrag t, Chain0 vfrag ∧
        res.filterComplex.head? = some (replaceFirstStr vfrag "[v0]" "[outv]") ∧
        (replaceFirstStr vfrag "[v0]" "[outv]").data
          = ('[' :: '0' :: t) ++ "[outv]".data) ∧
    (2 ≤ visualCount rs →
      res.filterComplex.count (mkConcatEntry (visualCount rs)) = 1 ∧
      mkConcatEntry (visualCount rs)
        = joinAll ((List.range (visualCount rs)).map padV)
          ++ "concat=n=" ++ natToStr (visualCount rs) ++ ":v=1:a=0[outv]") := by
  obtain ⟨hfc, -⟩ := composeVideo_ok h
  rw [hfc]
  constructor
  · intro h1
    refine ⟨buildFC_single_no_concat hbg h1, ?_⟩
    obtain ⟨vfrag, hb, hchain, heq⟩ := buildFC_single hbg h1
    obtain ⟨t, hdata, -⟩ := Chain0_replace hchain
    exact ⟨vfrag, t, hchain, by rw [heq]; rfl, hdata⟩
  · intro h2
    exact ⟨buildFC_multi_concat_count h2, rfl⟩

theorem C1_concat_shape_witness :
    (buildFC exOpts [imgA, imgB]).count (mkConcatEntry (visualCount [imgA, imgB])) = 1 :=
  (((C1_concat_shape (by decide)
      (rfl : composeVideo wEnv [imgA, imgB] "out.mp4" exOpts
        = .ok ⟨buildFC exOpts [imgA, imgB],
               buildArgs wEnv [imgA, imgB] "out.mp4" exOpts⟩)).2) (by decide)).1

/-- C1, counterexample to "inputs are all visual pads in original resource
order": with a video listed before an image, the builder pushes the image's
fragment first, so pad `[v0]` is bound to the image and `[v1]` to the video —
not the order the resources were supplied in. -/
theorem C1_original_order_cex :
    buildFC exOpts [vidPlain, imgPlain]
      = (imageFrags exOpts [vidPlain, imgPlain] ++ videoFrags exOpts [vidPlain, imgPlain])
        ++ [mkConcatEntry 2] ∧
    imageFrags exOpts [vidPlain, imgPlain] ++ videoFrags exOpts [vidPlain, imgPlain]
      ≠ specVisualFrags exOpts [vidPlain, imgPlain] := by
  set_option maxRecDepth 10000 in decide

/-- C2. For any accepted resource list: the pad labels the builder assigns
(`[v<i>]`, `[a<i>]`, `[outv]`, `[outa]`) are pairwise distinct, the final
video pad is `[outv]` whether there is one visual resource or many, and every
assigned pad occurs inside some entry of the assembled graph. -/
theorem C2_pads_distinct {env : Env} {rs : List Resource} {out : String}
    {o : ComposeOptions} {res : ComposeResult} (hbg : bracketFree (bgColorHex o))
    (h : composeVideo env rs out o = .ok res) :
    (padsAssigned rs).Nodup ∧ "[outv]" ∈ padsAssigned rs ∧
    ∀ p ∈ padsAssigned rs, ∃ s ∈ res.filterComplex, p.data <:+: s.data := by
  obtain ⟨hfc, -⟩ := composeVideo_ok h
  rw [hfc]
  exact ⟨padsAssigned_nodup rs, outv_mem_padsAssigned rs,
    padsAssigned_link hbg (composeVideo_ok_visual h)⟩

theorem C2_pads_distinct_witness :
    (padsAssigned [imgA, imgB, audHalf]).Nodup ∧
    "[outv]" ∈ padsAssigned [imgA, imgB, audHalf] ∧
    ∀ p ∈ padsAssigned [imgA, imgB, audHalf],
      ∃ s ∈ (⟨buildFC exOpts [imgA, imgB, audHalf],
              buildArgs wEnv [imgA, imgB, audHalf] "out.mp4" exOpts⟩
          : ComposeResult).filterComplex,
        p.data <:+: s.data :=
  C2_pads_distinct (by decide)
    (rfl : composeVideo wEnv [imgA, imgB, audHalf] "out.mp4" exOpts
      = .ok ⟨buildFC exOpts [imgA, imgB, audHalf],
             buildArgs wEnv [imgA, imgB, audHalf] "out.mp4" exOpts⟩)

/-- C3. The spec's worked example — two 3 s images with a 0.5 s fade at
1280x720/25 fps plus one audio resource at volume 50 — produces exactly the
expected graph: fragments ending in `[v0]` and `[v1]`, the concat entry, the
audio fragment `[2:a]volume=0.5[a2]`, and the amix entry; the invocation maps
`[outv]` and `[outa]` (not `[a2]` — see the counterexample). -/
theorem C3_worked_example :
    composeVideo wEnv [imgA, imgB, audHalf] "out.mp4" exOpts
      = .ok ⟨buildFC exOpts [imgA, imgB, audHalf],
             buildArgs wEnv [imgA, imgB, audHalf] "out.mp4" exOpts⟩ ∧
    buildFC exOpts [imgA, imgB, audHalf]
      = ["[0:v]loop=-1:size=1:start=0,scale=1280:720:force_original_aspect_ratio=decrease,pad=1280:720:(ow-iw)/2:(oh-ih)/2:color=0x000000,setsar=1,fps=25:round=up,trim=duration=3,fade=t=in:st=0:d=0.5,fade=t=out:st=2.5:d=0.5[v0]",
         "[1:v]loop=-1:size=1:start=0,scale=1280:720:force_original_aspect_ratio=decrease,pad=1280:720:(ow-iw)/2:(oh-ih)/2:color=0x000000,setsar=1,fps=25:round=up,trim=duration=3,fade=t=in:st=0:d=0.5,fade=t=out:st=2.5:d=0.5[v1]",
         "[2:a]volume=0.5[a2]",
         "[v0][v1]concat=n=2:v=1:a=0[outv]",
         "[a2]amix=inputs=1:duration=longest:dropout_transition=2[outa]"] ∧
    mapTargets (buildArgs wEnv [imgA, imgB, audHalf] "out.mp4" exOpts)
      = ["[outv]", "[outa]"] := by
  set_option maxRecDepth 40000 in
  refine ⟨rfl, by decide, by decide⟩

/-- C3, counterexample to "the -map arguments select [outv] and [a2]": the
pad `[a2]` is never a `-map` target of the assembled invocation — the audio
map is the amix output `[outa]`. -/
theorem C3_map_cex :
    (composeVideo wEnv [imgA, imgB, audHalf] "out.mp4" exOpts).toOption.map
        (fun r => (mapTargets r.args).contains "[a2]") = some false := by
  decide

/-- C4. On the zero-audio path the graph carries no amix entry at all and the
invocation's `-map` targets are `[outv]` plus — when a video resource exists —
the fallback embedded-audio map `<firstVideoIndex>:a?`, never `[outa]`; with at
least one audio resource the amix entry occurs exactly once and the `-map`
targets are exactly `[outv]` and `[outa]`. The map section sits between the
codec flags and the destination path. -/
theorem C4_audio_mix {env : Env} {rs : List Resource} {out : String}
    {o : ComposeOptions} {res : ComposeResult} (hbg : bracketFree (bgColorHex o))
    (hac : optAudioCodec o ≠ "-map") (hab : optAudioBitrate o ≠ "-map")
    (h : composeVideo env rs out o = .ok res) :
    (∃ pre, res.args = pre ++ (mapArgs o rs ++ [resolvePath env.cwd out])) ∧
    ((audiosOf rs).length = 0 →
      (∀ labels nA, mkAmixEntry labels nA ∉ res.filterComplex) ∧
      "[outa]" ∉ mapTargets (mapArgs o rs) ∧
      ((videosOf rs).length > 0 →
        mapTargets (mapArgs o rs) = ["[outv]", natToStr (imagesOf rs).length ++ ":a?"]) ∧
      ((videosOf rs).length = 0 → mapTargets (mapArgs o rs) = ["[outv]"])) ∧
    (0 < (audiosOf rs).length →
      res.filterComplex.count (mkAmixEntry (audioLabels rs) (audiosOf rs).length) = 1 ∧
      mapTargets (mapArgs o rs) = ["[outv]", "[outa]"]) := by
  obtain ⟨hfc, hargs⟩ := composeVideo_ok h
  have hv : 0 < visualCount rs := composeVideo_ok_visual h
  have hmt := mapTargets_mapArgs hv hac hab
  refine ⟨?_, ?_, ?_⟩
  · rw [hargs]
    exact args_map_section env rs out o
  · intro hA0
    have hAn : ¬(audiosOf rs).length > 0 := by omega
    rw [hfc]
    refine ⟨buildFC_no_amix hbg hA0, ?_, ?_, ?_⟩
    · rw [hmt, if_neg hAn]
      by_cases hV : (videosOf rs).length > 0
      · rw [if_pos hV]
        intro hmem
        rcases List.mem_cons.mp hmem with he | hmem'
        · exact absurd he (by decide)
        · have he : "[outa]" = natToStr (imagesOf rs).length ++ ":a?" :=
            List.mem_singleton.mp hmem'
          exact natColon_ne '['
            (show ("[outa]" : String).data.head? = some '[' by decide)
            (by decide) he.symm
      · rw [if_neg hV]
        intro hmem
        exact absurd (List.mem_singleton.mp hmem) (by decide)
    · intro hV
      rw [hmt, if_neg hAn, if_pos hV]
    · intro hV0
      rw [hmt, if_neg hAn, if_neg (by omega)]
  · intro hA
    rw [hfc, hmt, if_pos hA]
    exact ⟨buildFC_amix_count hbg hv hA, rfl⟩

theorem C4_audio_mix_witness :
    mapTargets (mapArgs exOpts [imgA, imgB, audHalf]) = ["[outv]", "[outa]"] :=
  ((C4_audio_mix (by decide) (by decide) (by decide)
      (rfl : composeVideo wEnv [imgA, imgB, audHalf] "out.mp4" exOpts
        = .ok ⟨buildFC exOpts [imgA, imgB, audHalf],
               buildArgs wEnv [imgA, imgB, audHalf] "out.mp4" exOpts⟩)).2.2
    (by decide)).2

/-- C5. An image resource's `duration` is never validated: when it is absent
or zero, `composeVideo` silently gives it the default clip duration of 3
seconds (`img.duration || 3`), producing exactly the fragment an explicit 3 s
duration would produce; and every nonzero duration — negative included —
passes through into the clip duration unchanged. -/
theorem C5_image_duration_default (img : Resource) :
    ((img.duration = none ∨ ∃ d, img.duration = some d ∧ d.isZero = true) →
      imageClipDuration img = (3 : JNum) ∧
      ∀ bg W H fps i, imageFragment bg W H fps i img
        = imageFragment bg W H fps i { img with duration := some (3 : JNum) }) ∧
    (∀ d, img.duration = some d → d.isZero = false → imageClipDuration img = d) := by
  constructor
  · intro hd
    have h3 : imageClipDuration img = (3 : JNum) := by
      unfold imageClipDuration jsOrQ
      rcases hd with hnone | ⟨d, hsome, hz⟩
      · rw [hnone]
      · rw [hsome]
        dsimp only
        rw [if_pos hz]
    have h3' : imageClipDuration { img with duration := some (3 : JNum) } = (3 : JNum) := by
      unfold imageClipDuration jsOrQ
      dsimp only
      rw [if_neg (by decide)]
    refine ⟨h3, fun bg W H fps i => ?_⟩
    unfold imageFragment
    dsimp only
    rw [h3, h3']
    rfl
  · intro d hsome hnz
    unfold imageClipDuration jsOrQ
    rw [hsome]
    dsimp only
    rw [if_neg (by simp [hnz])]

theorem C5_image_duration_default_witness :
    imageClipDuration imgNoDur = (3 : JNum) ∧
    (∀ bg W H fps i, imageFragment bg W H fps i imgNoDur
      = imageFragment bg W H fps i { imgNoDur with duration := some (3 : JNum) }) ∧
    imageClipDuration imgNegDur = ⟨-1, 1⟩ :=
  ⟨((C5_image_duration_default imgNoDur).1 (Or.inl rfl)).1,
   ((C5_image_duration_default imgNoDur).1 (Or.inl rfl)).2,
   (C5_image_duration_default imgNegDur).2 ⟨-1, 1⟩ rfl rfl⟩

/-- C5, counterexample to "the request is rejected with an error before any
encoder process is spawned": a compose call whose only image has no `duration`
succeeds with the silent `trim=duration=3` default in its graph, and one whose
image has duration -1 also succeeds, passing `trim=duration=-1` straight
through. -/
theorem C5_rejection_cex :
    (composeVideo wEnv [imgNoDur] "out.mp4" exOpts).toOption.isSome = true ∧
    (composeVideo wEnv [imgNoDur] "out.mp4" exOpts).toOption.map ComposeResult.filterComplex
      = some ["[0:v]loop=-1:size=1:start=0,scale=1280:720:force_original_aspect_ratio=decrease,pad=1280:720:(ow-iw)/2:(oh-ih)/2:color=0x000000,setsar=1,fps=25:round=up,trim=duration=3[outv]"] ∧
    (composeVideo wEnv [imgNegDur] "out.mp4" exOpts).toOption.map ComposeResult.filterComplex
      = some ["[0:v]loop=-1:size=1:start=0,scale=1280:720:force_original_aspect_ratio=decrease,pad=1280:720:(ow-iw)/2:(oh-ih)/2:color=0x000000,setsar=1,fps=25:round=up,trim=duration=-1[outv]"] := by
  set_option maxRecDepth 10000 in
  exact ⟨rfl, by decide, by decide⟩

/-- C6. The assembled filter-graph text is deterministic: two runs over the
same resource descriptors and options produce byte-identical graph text, even
under different process environments and output paths. -/
theorem C6_deterministic {env₁ env₂ : Env} {rs : List Resource} {out₁ out₂ : String}
    {o : ComposeOptions} {res₁ res₂ : ComposeResult}
    (h₁ : composeVideo env₁ rs out₁ o = .ok res₁)
    (h₂ : composeVideo env₂ rs out₂ o = .ok res₂) :
    res₁.filterComplex = res₂.filterComplex ∧ graphText res₁ = graphText res₂ := by
  obtain ⟨hf₁, -⟩ := composeVideo_ok h₁
  obtain ⟨hf₂, -⟩ := composeVideo_ok h₂
  have hfc : res₁.filterComplex = res₂.filterComplex := by rw [hf₁, hf₂]
  exact ⟨hfc, by unfold graphText; rw [hfc]⟩

theorem C6_deterministic_witness :
    graphText ⟨buildFC exOpts [imgA], buildArgs wEnv [imgA] "o1.mp4" exOpts⟩
      = graphText ⟨buildFC exOpts [imgA], buildArgs wEnvB [imgA] "o2.mp4" exOpts⟩ :=
  (C6_deterministic
    (rfl : composeVideo wEnv [imgA] "o1.mp4" exOpts
      = .ok ⟨buildFC exOpts [imgA], buildArgs wEnv [imgA] "o1.mp4" exOpts⟩)
    (rfl : composeVideo wEnvB [imgA] "o2.mp4" exOpts
      = .ok ⟨buildFC exOpts [imgA], buildArgs wEnvB [imgA] "o2.mp4" exOpts⟩)).2

/-- C7. In every accepted invocation the overwrite flag `-y` is the first
argument and the resolved destination path is the last; every video and audio
resource's input block appears as a contiguous slice `seekDurArgs ++ [-i, path]`
— the seek/duration flags immediately precede that resource's `-i`, never
follow it — and a positive `startTime`/`duration` pair yields exactly
`-ss <start> -t <duration>`. -/
theorem C7_argument_order {env : Env} {rs : List Resource} {out : String}
    {o : ComposeOptions} {res : ComposeResult}
    (h : composeVideo env rs out o = .ok res) :
    res.args.head? = some "-y" ∧
    res.args.getLast? = some (resolvePath env.cwd out) ∧
    (∀ r, r ∈ videosOf rs ∨ r ∈ audiosOf rs →
      ∃ x y, res.args = x ++ ((seekDurArgs r ++ ["-i", resolvePath env.cwd r.path]) ++ y)) ∧
    (∀ r s d, r.startTime = some s → 0 < s.num → r.duration = some d → 0 < d.num →
      seekDurArgs r = ["-ss", numToStr s, "-t", numToStr d]) := by
  obtain ⟨-, hargs⟩ := composeVideo_ok h
  rw [hargs]
  exact ⟨buildArgs_head _ _ _ _, buildArgs_last _ _ _ _,
    fun r hr => buildArgs_av_input hr,
    fun r s d hs hsp hd hdp => seekDurArgs_pos hs hsp hd hdp⟩

theorem C7_argument_order_witness :
    (buildArgs wEnv [vidSeek] "out.mp4" exOpts).head? = some "-y" ∧
    seekDurArgs vidSeek = ["-ss", numToStr 2, "-t", numToStr 4] :=
  ⟨(C7_argument_order
      (rfl : composeVideo wEnv [vidSeek] "out.mp4" exOpts
        = .ok ⟨buildFC exOpts [vidSeek], buildArgs wEnv [vidSeek] "out.mp4" exOpts⟩)).1,
    (C7_argument_order
      (rfl : composeVideo wEnv [vidSeek] "out.mp4" exOpts
        = .ok ⟨buildFC exOpts [vidSeek], buildArgs wEnv [vidSeek] "out.mp4" exOpts⟩)).2.2.2
      vidSeek 2 4 rfl (by decide) rfl (by decide)⟩

/-- C8. `composeVideo` fails with an error on an empty resource list and on a
list with no image and no video resource; with a writable output directory and
all input files present, the audio-only case fails with exactly the
no-visual-content error — always before any process would be spawned (`.ok` is
the only constructor that reaches the encoder). -/
theorem C8_visual_required (env : Env) (rs : List Resource) (out : String)
    (o : ComposeOptions) :
    (rs = [] → ∃ e, composeVideo env rs out o = .error e) ∧
    (imagesOf rs = [] → videosOf rs = [] → ∃ e, composeVideo env rs out o = .error e) ∧
    (env.outputWritable = true → rs ≠ [] → (∀ r ∈ rs, env.fsExists r.path = true) →
      imagesOf rs = [] → videosOf rs = [] →
      composeVideo env rs out o = .error "至少需要一个图片或视频资源") := by
  refine ⟨?_, ?_, ?_⟩
  · intro hrs
    cases hres : composeVideo env rs out o with
    | error e => exact ⟨e, rfl⟩
    | ok r => exact absurd hrs (composeVideo_ok_nonempty hres)
  · intro hi hv
    cases hres : composeVideo env rs out o with
    | error e => exact ⟨e, rfl⟩
    | ok r =>
      have := composeVideo_ok_visual hres
      unfold visualCount at this
      rw [hi, hv] at this
      simp at this
  · intro hw hne hex hi hv
    unfold composeVideo
    rw [if_neg (by simp [hw]), if_neg (by simp [List.isEmpty_iff, hne])]
    have hfind : rs.find? (fun r => !env.fsExists r.path) = none := by
      rw [List.find?_eq_none]
      intro r hr
      simp [hex r hr]
    rw [hfind]
    dsimp only
    rw [if_pos ⟨by simp [hi], by simp [hv]⟩]

theorem C8_visual_required_witness :
    composeVideo wEnv [audPlain] "out.mp4" exOpts = .error "至少需要一个图片或视频资源" :=
  (C8_visual_required wEnv [audPlain] "out.mp4" exOpts).2.2 rfl
    (List.cons_ne_nil _ _) (fun _ _ => rfl) rfl rfl

/-- C9. Temp-file cleanup holds only on the success path: a request whose
single resource is a downloaded image answers 200 with the temp file removed,
but a request whose single resource is a downloaded audio file makes
`composeVideo` fail, and the 500 answer leaves the downloaded temp file on
disk — the catch block's `typeof tempFiles !== 'undefined'` guard is always
false because `tempFiles` is block-scoped inside `try`, so the claimed
failure-path cleanup never runs. -/
theorem C9_temp_leak :
    composeHandler sEnv9 [imgUrl] {} [] = ⟨200, []⟩ ∧
    composeHandler sEnv9 [audUrl] {} [] = ⟨500, [downloadedPath sEnv9 0]⟩ := by
  exact ⟨rfl, rfl⟩

/-- C10. For every delete request: a filename containing `..`, `/` or `\`
answers 400 with the disk untouched; and every 200 answer removes exactly one
stored file whose path is the join of the selected fixed directory (uploads or
output) with a separator-free filename. -/
theorem C10_delete_traversal_safe (up out directory filename : String)
    (disk : List String) :
    ((containsSub filename ".." = true ∨ containsSub filename "/" = true ∨
        containsSub filename "\\" = true) →
      deleteHandler up out directory filename disk = ⟨400, disk⟩) ∧
    (∀ res, deleteHandler up out directory filename disk = res → res.status = 200 →
      containsSub filename ".." = false ∧ containsSub filename "/" = false ∧
      containsSub filename "\\" = false ∧
      ∃ dirPath, (dirPath = up ∨ dirPath = out) ∧ pathJoin dirPath filename ∈ disk ∧
        res.disk = disk.erase (pathJoin dirPath filename)) := by
  constructor
  · intro hsub
    unfold deleteHandler
    by_cases h1 : ¬(directory = "uploads" ∨ directory = "output")
    · rw [if_pos h1]
    · rw [if_neg h1]
      by_cases h2 : filename = ""
      · rw [if_pos h2]
      · rw [if_neg h2]
        rw [if_pos hsub]
  · intro res hres h200
    unfold deleteHandler at hres
    by_cases h1 : ¬(directory = "uploads" ∨ directory = "output")
    · rw [if_pos h1] at hres
      rw [← hres] at h200
      simp at h200
    rw [if_neg h1] at hres
    by_cases h2 : filename = ""
    · rw [if_pos h2] at hres
      rw [← hres] at h200
      simp at h200
    rw [if_neg h2] at hres
    by_cases h3 : containsSub filename ".." = true ∨ containsSub filename "/" = true ∨
        containsSub filename "\\" = true
    · rw [if_pos h3] at hres
      rw [← hres] at h200
      simp at h200
    rw [if_neg h3] at hres
    simp only [] at hres
    by_cases h4 : ¬((if directory = "uploads" then up else out).data.isPrefixOf
        (pathJoin (if directory = "uploads" then up else out) filename).data = true)
    · rw [if_pos h4] at hres
      rw [← hres] at h200
      simp at h200
    rw [if_neg h4] at hres
    by_cases h5 : ¬(delExists up out disk
        (pathJoin (if directory = "uploads" then up else out) filename) = true)
    · rw [if_pos h5] at hres
      rw [← hres] at h200
      simp at h200
    rw [if_neg h5] at hres
    rcases unlinkSync_cases disk
        (pathJoin (if directory = "uploads" then up else out) filename) with
      ⟨hmem, hu⟩ | ⟨hnm, hu⟩
    · rw [hu] at hres
      dsimp only at hres
      refine ⟨Bool.eq_false_iff.mpr (fun hx => h3 (Or.inl hx)),
        Bool.eq_false_iff.mpr (fun hx => h3 (Or.inr (Or.inl hx))),
        Bool.eq_false_iff.mpr (fun hx => h3 (Or.inr (Or.inr hx))),
        (if directory = "uploads" then up else out), ?_, hmem, ?_⟩
      · by_cases hdir : directory = "uploads"
        · rw [if_pos hdir]
          exact Or.inl rfl
        · rw [if_neg hdir]
          exact Or.inr rfl
      · rw [← hres]
    · rw [hu] at hres
      dsimp only at hres
      rw [← hres] at h200
      simp at h200

theorem C10_delete_traversal_safe_witness :
    deleteHandler "/u" "/o" "uploads" "../secret" ["/u/f"] = ⟨400, ["/u/f"]⟩ :=
  (C10_delete_traversal_safe "/u" "/o" "uploads" "../secret" ["/u/f"]).1
    (Or.inl (by decide))
